import Mathlib

/-!  A shallow embedding of `databricks/labs/ucx/workspace_access/scim.py`
(class `ScimSupport`): SCIM group crawling and grant application, with its
retry, rate-limit and safe-wrapper behavior.  The embedding also models the
parts of the Databricks SDK surface the module uses (`iam.ComplexValue`,
`iam.Group`, `iam.Patch`, `databricks.sdk.retries.retried`) and the stdlib
`json` fragment its snapshots serialize with.  Collaborators that live in
modules outside this one (`Permissions`, `MigrationState`,
`_SYSTEM_GROUPS`) are modelled from the specification and marked as such. -/

namespace Scim

/-- JSON and Python dict values appearing in `ComplexValue.as_dict`
dictionaries: every field of a SCIM complex value is a string except
`primary`, which is a bool. -/
inductive JVal where
  | s (v : String)
  | b (v : Bool)
deriving DecidableEq

/-- A Python dict as an ordered association list (insertion order), the
shape the SDK `as_dict` serializers build. -/
abbrev JDict := List (String × JVal)

/-- databricks.sdk.service.iam.ComplexValue: one role or entitlement
entry.  All fields are optional; `ref` is serialized under the key
`$ref`.  Equality is structural (Python dataclass equality). -/
structure ComplexValue where
  display : Option String := none
  primary : Option Bool := none
  ref : Option String := none
  type : Option String := none
  value : Option String := none
deriving DecidableEq

/-- ComplexValue.as_dict (SDK): a dict with a key for each field that is
not None, in dataclass field order. -/
def ComplexValue.as_dict (c : ComplexValue) : JDict :=
  (match c.display with | some v => [("display", JVal.s v)] | none => []) ++
  (match c.primary with | some v => [("primary", JVal.b v)] | none => []) ++
  (match c.ref with | some v => [("$ref", JVal.s v)] | none => []) ++
  (match c.type with | some v => [("type", JVal.s v)] | none => []) ++
  (match c.value with | some v => [("value", JVal.s v)] | none => [])

/-- Python `d.get(k, None)` restricted to string values. -/
def JDict.getStr (d : JDict) (k : String) : Option String :=
  match d.find? (fun kv => kv.1 == k) with
  | some (_, JVal.s v) => some v
  | _ => none

/-- Python `d.get(k, None)` restricted to bool values. -/
def JDict.getBool (d : JDict) (k : String) : Option Bool :=
  match d.find? (fun kv => kv.1 == k) with
  | some (_, JVal.b v) => some v
  | _ => none

/-- ComplexValue.from_dict (SDK): read each optional field back out of the
dict. -/
def ComplexValue.from_dict (d : JDict) : ComplexValue :=
  { display := d.getStr "display"
    primary := d.getBool "primary"
    ref := d.getStr "$ref"
    type := d.getStr "type"
    value := d.getStr "value" }

/-- databricks.sdk.service.iam.Group, restricted to the fields scim.py
reads: id, display_name, roles, entitlements. -/
structure Group where
  id : Option String := none
  display_name : Option String := none
  roles : Option (List ComplexValue) := none
  entitlements : Option (List ComplexValue) := none
deriving DecidableEq

/-- Python truthiness of an optional list (`if g.roles`): `None` and the
empty list are falsy. -/
def listTruthy : Option (List α) → Bool
  | some l => !l.isEmpty
  | none => false

/-- One pending crawler task, i.e. the arguments
`partial(self._crawler_task, g, property_name)` captures. -/
abbrev CrawlerTask := Group × String

/-- The tasks `get_crawler_tasks` yields for one crawled group `g`: one
"roles" task when `g.roles and len(g.roles) > 0`, then one "entitlements"
task likewise. -/
def crawlerTasksFor (g : Group) : List CrawlerTask :=
  (if listTruthy g.roles then [(g, "roles")] else []) ++
  (if listTruthy g.entitlements then [(g, "entitlements")] else [])

/-- ScimSupport.get_crawler_tasks, as a function of the group list that
`self._get_groups()` returned. -/
def get_crawler_tasks (groups : List Group) : List CrawlerTask :=
  groups.flatMap crawlerTasksFor

/-- Exceptions visible to scim.py: the SDK `DatabricksError` hierarchy
(`PermissionDenied`, `NotFound`, `InternalError` are subclasses;
`otherDatabricks` stands for any further subclass), the builtin
`ValueError`, and the `TimeoutError` that the SDK `retried` helper raises
when its deadline elapses, chaining the last retryable error as cause. -/
inductive Err where
  | permissionDenied (msg : String)
  | notFound (msg : String)
  | internalError (msg : String)
  | otherDatabricks (msg : String)
  | valueError (msg : String)
  | timeoutError (cause : Err)
deriving DecidableEq

/-- Python `isinstance(e, DatabricksError)`. -/
def Err.isDatabricksError : Err → Bool
  | .permissionDenied _ => true
  | .notFound _ => true
  | .internalError _ => true
  | .otherDatabricks _ => true
  | .valueError _ => false
  | .timeoutError _ => false

/-- Python `isinstance(e, ValueError)`. -/
def Err.isValueError : Err → Bool
  | .valueError _ => true
  | _ => false

/-- Python `isinstance(e, InternalError)`. -/
def Err.isInternalError : Err → Bool
  | .internalError _ => true
  | _ => false

/-- Python `isinstance(e, PermissionDenied)`. -/
def Err.isPermissionDenied : Err → Bool
  | .permissionDenied _ => true
  | _ => false

/-- Python `isinstance(e, NotFound)`. -/
def Err.isNotFound : Err → Bool
  | .notFound _ => true
  | _ => false

/-- The exception classes named in the `retried(on=[...])` call sites of
scim.py. -/
inductive ExcClass where
  | databricksError
  | internalError
  | valueError
deriving DecidableEq

/-- The subclass-aware isinstance check `retried` performs against each
declared class. -/
def isInstanceOf (e : Err) : ExcClass → Bool
  | .databricksError => e.isDatabricksError
  | .internalError => e.isInternalError
  | .valueError => e.isValueError

/-- The arguments of one `retried(...)` instantiation: the retryable
exception classes and the timeout in seconds (none = the SDK default was
left in place). -/
structure RetryArgs where
  retryOn : List ExcClass
  timeout : Option Nat
deriving DecidableEq

/-- Whether `retried` re-invokes the wrapped operation after error `e`
under the given arguments. -/
def retryPred (args : RetryArgs) (e : Err) : Bool :=
  args.retryOn.any (isInstanceOf e)

/-- scim.py `_applier_task`:
`retried(on=[DatabricksError], timeout=self._verify_timeout)` wrapping
`self._safe_patch_group`. -/
def patchRetryArgs (verify_timeout : Option Nat) : RetryArgs :=
  { retryOn := [ExcClass.databricksError], timeout := verify_timeout }

/-- scim.py `_applier_task`:
`retried(on=[ValueError, DatabricksError], timeout=self._verify_timeout)`
wrapping `self._inflight_check`. -/
def checkRetryArgs (verify_timeout : Option Nat) : RetryArgs :=
  { retryOn := [ExcClass.valueError, ExcClass.databricksError], timeout := verify_timeout }

/-- ScimSupport.__init__ default `verify_timeout = timedelta(minutes=1)`,
in seconds. -/
def default_verify_timeout : Option Nat := some 60

/-- The `@retried(on=[InternalError])` decoration on
`_get_group_with_retries` (no explicit timeout). -/
def get_group_retry_args : RetryArgs :=
  { retryOn := [ExcClass.internalError], timeout := none }

/-- The arguments of one `@rate_limited(...)` decoration. -/
structure RateLimit where
  max_requests : Nat
  burst_period_seconds : Nat
deriving DecidableEq

/-- The `@rate_limited(max_requests=10, burst_period_seconds=60)`
decoration on `_applier_task`. -/
def applier_task_rate_limit : RateLimit :=
  { max_requests := 10, burst_period_seconds := 60 }

/-- The `@rate_limited(max_requests=255, burst_period_seconds=60)`
decoration on `_get_group_with_retries`. -/
def get_group_rate_limit : RateLimit :=
  { max_requests := 255, burst_period_seconds := 60 }

/-- The SCIM PatchOp used by `_applier_task` (`iam.PatchOp.ADD`). -/
inductive PatchOp where
  | add
deriving DecidableEq

/-- iam.Patch as `_applier_task` builds it: an op, the grant-kind path,
and the grants as dicts. -/
structure Patch where
  op : PatchOp
  path : String
  value : List JDict
deriving DecidableEq

/-- `iam.PatchSchema.URN_IETF_PARAMS_SCIM_API_MESSAGES_2_0_PATCH_OP`. -/
def patchSchemas : List String :=
  ["urn:ietf:params:scim:api:messages:2.0:PatchOp"]

/-- Scripted behavior of the remote WorkspaceClient: the response to the
n-th `groups.get` (resp. `groups.patch`) call the module makes, so that
eventually-consistent response histories are expressible. -/
structure ClientEnv where
  getResp : Nat → String → Except Err Group
  patchResp : Nat → String → List Patch → List String → Except Err Unit

/-- Remote-call counters plus the warnings logged so far. -/
structure NetState where
  gets : Nat := 0
  patches : Nat := 0
  logs : List String := []
deriving DecidableEq

/-- `self._ws.groups.get(group_id)`: consume the next scripted get
response. -/
def wsGroupsGet (env : ClientEnv) (group_id : String) (st : NetState) :
    Except Err Group × NetState :=
  (env.getResp st.gets group_id, { st with gets := st.gets + 1 })

/-- `self._ws.groups.patch(id=group_id, operations=..., schemas=...)`:
consume the next scripted patch response. -/
def wsGroupsPatch (env : ClientEnv) (group_id : String)
    (operations : List Patch) (schemas : List String) (st : NetState) :
    Except Err Unit × NetState :=
  (env.patchResp st.patches group_id operations schemas,
    { st with patches := st.patches + 1 })

/-- The error narrowing `_safe_get_group` performs on one raw response:
`PermissionDenied` and `NotFound` become `None` plus a logged warning;
any other error propagates; a group comes back unchanged. -/
def safeGetNarrow (group_id : String) (r : Except Err Group) :
    Except Err (Option Group) × List String :=
  match r with
  | .ok g => (.ok (some g), [])
  | .error (.permissionDenied _) => (.ok none, ["permission denied: " ++ group_id])
  | .error (.notFound _) => (.ok none, ["removed on backend: " ++ group_id])
  | .error e => (.error e, [])

/-- The identical narrowing `_safe_patch_group` performs on one raw patch
response. -/
def safePatchNarrow (group_id : String) (r : Except Err Unit) :
    Except Err (Option Unit) × List String :=
  match r with
  | .ok u => (.ok (some u), [])
  | .error (.permissionDenied _) => (.ok none, ["permission denied: " ++ group_id])
  | .error (.notFound _) => (.ok none, ["removed on backend: " ++ group_id])
  | .error e => (.error e, [])

/-- ScimSupport._safe_get_group. -/
def _safe_get_group (env : ClientEnv) (group_id : String) (st : NetState) :
    Except Err (Option Group) × NetState :=
  let (r, st2) := wsGroupsGet env group_id st
  let (out, warns) := safeGetNarrow group_id r
  (out, { st2 with logs := st2.logs ++ warns })

/-- ScimSupport._safe_patch_group. -/
def _safe_patch_group (env : ClientEnv) (group_id : String)
    (operations : List Patch) (schemas : List String) (st : NetState) :
    Except Err (Option Unit) × NetState :=
  let (r, st2) := wsGroupsPatch env group_id operations schemas st
  let (out, warns) := safePatchNarrow group_id r
  (out, { st2 with logs := st2.logs ++ warns })

/-- databricks.sdk.retries.retried, fuel-indexed: run the operation; on a
retryable error retry while fuel remains (the fuel models how many
attempts the wall-clock deadline admits); when fuel runs out, surface
`TimeoutError` chaining the last retryable error; a non-retryable error
propagates immediately. -/
def retriedRun (p : Err → Bool) (f : NetState → Except Err α × NetState) :
    Nat → NetState → Except Err α × NetState
  | fuel, st =>
    match f st with
    | (.ok a, st2) => (.ok a, st2)
    | (.error e, st2) =>
      if p e then
        match fuel with
        | 0 => (.error (.timeoutError e), st2)
        | fuel' + 1 => retriedRun p f fuel' st2
      else (.error e, st2)

/-- CPython str repr escaping, restricted to what the module can put in a
log message: backslash, the quote character, and the common control
characters get a backslash escape; everything else passes through.
(CPython's alternate-quote selection for strings containing a single
quote is not modelled; no theorem depends on the exact rendering.) -/
def pyStrEscChar (c : Char) : List Char :=
  if c = '\\' then ['\\', '\\']
  else if c = Char.ofNat 39 then ['\\', Char.ofNat 39]
  else if c = Char.ofNat 10 then ['\\', 'n']
  else if c = Char.ofNat 13 then ['\\', 'r']
  else if c = Char.ofNat 9 then ['\\', 't']
  else [c]

/-- CPython repr of a string: single-quoted with escapes. -/
def pyStrRepr (s : String) : String :=
  ⟨Char.ofNat 39 :: s.data.flatMap pyStrEscChar ++ [Char.ofNat 39]⟩

/-- CPython repr of one dict value of the shapes `as_dict` produces. -/
def pyJValRepr : JVal → String
  | .s v => pyStrRepr v
  | .b true => "True"
  | .b false => "False"

/-- CPython repr of a flat dict: `str(d)` as interpolated by an f-string. -/
def pyJDictRepr (d : JDict) : String :=
  "\x7b" ++
    String.intercalate ", "
      (d.map (fun kv => pyStrRepr kv.1 ++ ": " ++ pyJValRepr kv.2)) ++
    "\x7d"

/-- CPython repr of a list of flat dicts, e.g.
`[e.as_dict() for e in value]` interpolated into the f-string. -/
def pyJDictListRepr (ds : List JDict) : String :=
  "[" ++ String.intercalate ", " (ds.map pyJDictRepr) ++ "]"

/-- Group.as_dict (SDK) rendered by repr, restricted to the modelled
fields, in SDK dataclass field order (displayName, entitlements, id,
roles), with a key only for fields that are not None. -/
def groupEntryReprs (g : Group) : List String :=
  (match g.display_name with
    | some v => ["'displayName': " ++ pyStrRepr v]
    | none => []) ++
  (match g.entitlements with
    | some l => ["'entitlements': " ++ pyJDictListRepr (l.map ComplexValue.as_dict)]
    | none => []) ++
  (match g.id with
    | some v => ["'id': " ++ pyStrRepr v]
    | none => []) ++
  (match g.roles with
    | some l => ["'roles': " ++ pyJDictListRepr (l.map ComplexValue.as_dict)]
    | none => [])

/-- `\x7bgroup.as_dict()\x7d` as interpolated into the f-string. -/
def Group.as_dict_repr (g : Group) : String :=
  "\x7b" ++ String.intercalate ", " (groupEntryReprs g) ++ "\x7d"

/-- Literal first segment of the `_inflight_check` f-string message. -/
def inflightMsgHead : String :=
  "Couldn't apply appropriate role for group "

/-- Literal segment before the requested-acl interpolation. -/
def inflightMsgMid1 : String :=
  "\n                            acl to be applied="

/-- Literal segment before the observed-group interpolation. -/
def inflightMsgMid2 : String :=
  "\n                            acl found in the object="

/-- Literal trailing segment of the message. -/
def inflightMsgTail : String :=
  "\n                            "

/-- The ValueError message `_inflight_check` raises: the triple-quoted
f-string naming the group id, the grants to be applied (as dicts) and the
group record observed on the backend. -/
def inflightMsg (group_id : String) (value : List ComplexValue)
    (group : Group) : String :=
  inflightMsgHead ++ group_id ++
    inflightMsgMid1 ++ pyJDictListRepr (value.map ComplexValue.as_dict) ++
    inflightMsgMid2 ++ Group.as_dict_repr group ++
    inflightMsgTail

/-- The decision `_inflight_check` takes from one safe-get result: absent
group returns False; a group whose list of the requested kind is truthy
and contains every requested grant returns True; any other present group
raises ValueError with the message above. -/
def inflightDecision (group_id : String) (value : List ComplexValue)
    (property_name : String) (r : Option Group) : Except Err Bool :=
  match r with
  | some group =>
    if (property_name == "roles" && listTruthy group.roles &&
          value.all (fun e => (group.roles.getD []).contains e))
        || (property_name == "entitlements" && listTruthy group.entitlements &&
          value.all (fun e => (group.entitlements.getD []).contains e)) then
      .ok true
    else
      .error (.valueError (inflightMsg group_id value group))
  | none => .ok false

/-- ScimSupport._inflight_check: one `_safe_get_group` read, then the
decision above; an error from the read propagates. -/
def _inflight_check (env : ClientEnv) (group_id : String)
    (value : List ComplexValue) (property_name : String) (st : NetState) :
    Except Err Bool × NetState :=
  match _safe_get_group env group_id st with
  | (.ok r, st2) => (inflightDecision group_id value property_name r, st2)
  | (.error e, st2) => (.error e, st2)

/-- ScimSupport._applier_task: build the ADD patch, submit it through
`_safe_patch_group` retried on DatabricksError, then return the result of
`_inflight_check` retried on ValueError and DatabricksError; both retry
loops are bounded by `verify_timeout` (here: by the same fuel). -/
def _applier_task (env : ClientEnv) (vt : Option Nat) (fuel : Nat)
    (group_id : String) (value : List ComplexValue) (property_name : String)
    (st : NetState) : Except Err Bool × NetState :=
  let operations : List Patch :=
    [{ op := PatchOp.add, path := property_name,
       value := value.map ComplexValue.as_dict }]
  match retriedRun (retryPred (patchRetryArgs vt))
      (fun s => _safe_patch_group env group_id operations patchSchemas s)
      fuel st with
  | (.error e, st2) => (.error e, st2)
  | (.ok _, st2) =>
    retriedRun (retryPred (checkRetryArgs vt))
      (fun s => _inflight_check env group_id value property_name s)
      fuel st2

/-- An SDK client only raises DatabricksError subclasses from its remote
calls (never bare ValueError or TimeoutError). -/
def ClientEnv.wellTyped (env : ClientEnv) : Prop :=
  (∀ n gid e, env.getResp n gid = .error e → e.isDatabricksError = true) ∧
  (∀ n gid ops schemas e, env.patchResp n gid ops schemas = .error e →
    e.isDatabricksError = true)

/-- List-membership test used to model the Python substring operator
`sub in s` on strings. -/
def listIsInfix [DecidableEq α] : List α → List α → Bool
  | needle, [] => needle.isEmpty
  | needle, c :: t => needle.isPrefixOf (c :: t) || listIsInfix needle t

/-- Python `sub in s` for strings. -/
def strContainsSub (s sub : String) : Bool :=
  listIsInfix sub.data s.data

/-- One outbound directory-API call of the crawl path, for call-trace
reasoning. -/
inductive ApiCall where
  | list (attributes : String)
  | get (group_id : Option String)
deriving DecidableEq

/-- Scripted responses for the crawl path: the group list returned per
attribute projection, and per group id the full record that
`_get_group_with_retries` finally returns (or the error it finally
raises after its InternalError retries). -/
structure CrawlEnv where
  listResp : String → List Group
  getFullResp : Option String → Except Err Group

/-- ScimSupport._is_group_out_of_scope.  `system_groups` stands for the
class attribute `_SYSTEM_GROUPS`, which is declared outside this module;
modelled from the spec as a fixed list of reserved/system display names,
passed as a parameter. -/
def _is_group_out_of_scope (system_groups : List String) (group : Group) :
    Bool :=
  match group.display_name with
  | some dn => system_groups.contains dn
  | none => false

/-- The per-group loop of `_list_workspace_groups`'s expensive branch:
skip out-of-scope groups, then issue one `_get_group_with_retries` per
kept group and append its result; an error from the get propagates,
aborting the crawl.  Returns the results together with the get-call
trace. -/
def crawlFetchLoop (env : CrawlEnv) (system_groups : List String) :
    List Group → Except Err (List Group) × List ApiCall
  | [] => (.ok [], [])
  | g :: gs =>
    if _is_group_out_of_scope system_groups g then
      crawlFetchLoop env system_groups gs
    else
      match env.getFullResp g.id with
      | .error e => (.error e, [ApiCall.get g.id])
      | .ok full =>
        match crawlFetchLoop env system_groups gs with
        | (.ok rest, calls) => (.ok (full :: rest), ApiCall.get g.id :: calls)
        | (.error e, calls) => (.error e, ApiCall.get g.id :: calls)

/-- ScimSupport._list_workspace_groups together with its API-call trace:
when the requested attributes include members, roles or entitlements,
first list with only the cheap attributes `id,displayName,meta`, filter
out system groups, then fetch each remaining group individually;
otherwise a single list call with the requested attributes, filtered. -/
def _list_workspace_groups (env : CrawlEnv) (system_groups : List String)
    (scim_attributes : String) : Except Err (List Group) × List ApiCall :=
  if strContainsSub scim_attributes "members" ||
      strContainsSub scim_attributes "roles" ||
      strContainsSub scim_attributes "entitlements" then
    let listed := env.listResp "id,displayName,meta"
    let res := crawlFetchLoop env system_groups listed
    (res.1, ApiCall.list "id,displayName,meta" :: res.2)
  else
    (.ok ((env.listResp scim_attributes).filter
        (fun g => !_is_group_out_of_scope system_groups g)),
      [ApiCall.list scim_attributes])

/-- Modelled from the spec: one migrated-group record of the
MigrationState from the groups module (not under src).  It carries the
workspace-group id that `_is_item_relevant` reads and the mapped target
group id that `get_target_id` returns. -/
structure MigratedGroup where
  id_in_workspace : String
  id_in_target : String
deriving DecidableEq

/-- Modelled from the spec: MigrationState from the groups module (not
under src): the collection of migrated groups, supporting a
source-to-target id lookup whose failure means "not in migration
scope". -/
structure MigrationState where
  groups : List MigratedGroup
deriving DecidableEq

/-- Modelled from the spec: MigrationState.get_target_id — the
source-to-target group-id lookup. -/
def MigrationState.get_target_id (ms : MigrationState)
    (object_id : Option String) : Option String :=
  (ms.groups.find? (fun g => (some g.id_in_workspace : Option String) == object_id)).map
    (fun g => g.id_in_target)

/-- Modelled from the spec: the Permissions record from the base module
(not under src): a crawled snapshot with the source object id, the grant
kind, and the raw JSON payload.  `object_id` is optional because the
crawler copies `group.id`, itself optional. -/
structure Permissions where
  object_id : Option String
  object_type : String
  raw : String
deriving DecidableEq

/-- ScimSupport._is_item_relevant: does any migrated group's workspace id
equal the item's object id. -/
def _is_item_relevant (item : Permissions) (ms : MigrationState) : Bool :=
  ms.groups.any (fun g => (some g.id_in_workspace : Option String) == item.object_id)

/-- The argument bundle that
`partial(self._applier_task, group_id=..., value=..., property_name=...)`
captures when `get_apply_task` returns a task. -/
structure ApplierCall where
  group_id : Option String
  value : List ComplexValue
  property_name : String
deriving DecidableEq

/-- Lowercase hex digit, as in CPython's `'\\u%04x'` escape. -/
def hexDigitChar (d : Nat) : Char :=
  if d < 10 then Char.ofNat (48 + d) else Char.ofNat (87 + d)

/-- A `\\uXXXX` escape for a code unit below 0x10000. -/
def uEscape (n : Nat) : List Char :=
  ['\\', 'u', hexDigitChar (n / 4096 % 16), hexDigitChar (n / 256 % 16),
    hexDigitChar (n / 16 % 16), hexDigitChar (n % 16)]

/-- json.dumps character escaping with the default `ensure_ascii=True`:
backslash, quote and the five short control escapes; every other
character outside printable ASCII becomes `\\uXXXX`, astral characters a
surrogate pair. -/
def jsonEscChar (c : Char) : List Char :=
  if c = '\\' then ['\\', '\\']
  else if c = '"' then ['\\', '"']
  else if c = Char.ofNat 8 then ['\\', 'b']
  else if c = Char.ofNat 9 then ['\\', 't']
  else if c = Char.ofNat 10 then ['\\', 'n']
  else if c = Char.ofNat 12 then ['\\', 'f']
  else if c = Char.ofNat 13 then ['\\', 'r']
  else if c.toNat < 32 then uEscape c.toNat
  else if c.toNat > 126 then
    if c.toNat < 65536 then uEscape c.toNat
    else uEscape (55296 + (c.toNat - 65536) / 1024) ++
      uEscape (56320 + (c.toNat - 65536) % 1024)
  else [c]

/-- A JSON string literal: quote, escaped characters, quote. -/
def renderJString (s : String) : List Char :=
  '"' :: s.data.flatMap jsonEscChar ++ ['"']

/-- A JSON scalar of the fragment `as_dict` produces. -/
def renderJVal : JVal → List Char
  | .s v => renderJString v
  | .b true => ['t', 'r', 'u', 'e']
  | .b false => ['f', 'a', 'l', 's', 'e']

/-- One object member, with json.dumps's default `': '` separator. -/
def renderPair (kv : String × JVal) : List Char :=
  renderJString kv.1 ++ (':' :: ' ' :: renderJVal kv.2)

/-- Join pre-rendered pieces with json.dumps's default `', '` item
separator. -/
def sepConcat : List (List Char) → List Char
  | [] => []
  | [x] => x
  | x :: y :: xs => x ++ (',' :: ' ' :: sepConcat (y :: xs))

/-- One JSON object of the fragment. -/
def renderObj (d : JDict) : List Char :=
  '\x7b' :: sepConcat (d.map renderPair) ++ ['\x7d']

/-- The JSON array `json.dumps([e.as_dict() for e in ...])` produces. -/
def renderArr (ds : List JDict) : List Char :=
  '[' :: sepConcat (ds.map renderObj) ++ [']']

/-- json.dumps on a list of flat dicts (default separators,
ensure_ascii). -/
def jsonDumps (ds : List JDict) : String :=
  ⟨renderArr ds⟩

/-- Value of one hexadecimal digit (json accepts both cases). -/
def hexVal (c : Char) : Option Nat :=
  if 48 ≤ c.toNat ∧ c.toNat ≤ 57 then some (c.toNat - 48)
  else if 97 ≤ c.toNat ∧ c.toNat ≤ 102 then some (c.toNat - 87)
  else if 65 ≤ c.toNat ∧ c.toNat ≤ 70 then some (c.toNat - 55)
  else none

/-- json.loads four-hex-digit scanning, as in the `\\uXXXX` escape. -/
def parseHex4 : List Char → Option (Nat × List Char)
  | a :: b :: c :: d :: rest =>
    match hexVal a, hexVal b, hexVal c, hexVal d with
    | some ha, some hb, some hc, some hd =>
      some (ha * 4096 + hb * 256 + hc * 16 + hd, rest)
    | _, _, _, _ => none
  | _ => none

/-- json.loads backslash-escape scanning (input starts after the
backslash): the short escapes, and `\\uXXXX` code units with surrogate
pairs recombined; a lone surrogate is rejected. -/
def parseEscape : List Char → Option (Char × List Char)
  | [] => none
  | c :: rest =>
    if c = '"' then some ('"', rest)
    else if c = '\\' then some ('\\', rest)
    else if c = '/' then some ('/', rest)
    else if c = 'b' then some (Char.ofNat 8, rest)
    else if c = 't' then some (Char.ofNat 9, rest)
    else if c = 'n' then some (Char.ofNat 10, rest)
    else if c = 'f' then some (Char.ofNat 12, rest)
    else if c = 'r' then some (Char.ofNat 13, rest)
    else if c = 'u' then
      match parseHex4 rest with
      | none => none
      | some (h, r2) =>
        if 55296 ≤ h ∧ h < 56320 then
          match r2 with
          | '\\' :: 'u' :: r3 =>
            match parseHex4 r3 with
            | none => none
            | some (lo, r4) =>
              if 56320 ≤ lo ∧ lo < 57344 then
                some (Char.ofNat (65536 + (h - 55296) * 1024 + (lo - 56320)), r4)
              else none
          | _ => none
        else if 56320 ≤ h ∧ h < 57344 then none
        else some (Char.ofNat h, r2)
    else none

/-- json.loads string scanning after the opening quote: contents up to
the closing quote, decoding escapes; fuel bounds the number of decoded
characters. -/
def parseStringBody : Nat → List Char → Option (List Char × List Char)
  | 0, _ => none
  | _ + 1, [] => none
  | fuel + 1, c :: rest =>
    if c = '"' then some ([], rest)
    else if c = '\\' then
      match parseEscape rest with
      | none => none
      | some (ch, r2) => (parseStringBody fuel r2).map (fun p => (ch :: p.1, p.2))
    else (parseStringBody fuel rest).map (fun p => (c :: p.1, p.2))

/-- json.loads scalar values of the fragment: strings and booleans. -/
def parseJVal (fuel : Nat) : List Char → Option (JVal × List Char)
  | 't' :: 'r' :: 'u' :: 'e' :: rest => some (JVal.b true, rest)
  | 'f' :: 'a' :: 'l' :: 's' :: 'e' :: rest => some (JVal.b false, rest)
  | '"' :: rest =>
    (parseStringBody fuel rest).map (fun p => (JVal.s ⟨p.1⟩, p.2))
  | _ => none

/-- json.loads object members after the opening brace of a non-empty
object: `"key": value` pairs separated by `', '` and closed by a brace;
fuel bounds the number of pairs. -/
def parsePairs : Nat → List Char → Option (JDict × List Char)
  | 0, _ => none
  | fuel + 1, input =>
    match input with
    | '"' :: rest =>
      match parseStringBody (fuel + 1) rest with
      | none => none
      | some (key, rest2) =>
        match rest2 with
        | ':' :: ' ' :: rest3 =>
          match parseJVal (fuel + 1) rest3 with
          | none => none
          | some (v, rest4) =>
            match rest4 with
            | ',' :: ' ' :: rest5 =>
              (parsePairs fuel rest5).map (fun p =>
                ((⟨key⟩, v) :: p.1, p.2))
            | '\x7d' :: rest5 => some ([(⟨key⟩, v)], rest5)
            | _ => none
        | _ => none
    | _ => none

/-- json.loads of one object of the fragment. -/
def parseObj (fuel : Nat) : List Char → Option (JDict × List Char)
  | '\x7b' :: '\x7d' :: rest => some ([], rest)
  | '\x7b' :: rest => parsePairs fuel rest
  | _ => none

/-- json.loads array items: objects separated by `', '`; fuel bounds the
number of items. -/
def parseItems : Nat → List Char → Option (List JDict × List Char)
  | 0, _ => none
  | fuel + 1, input =>
    match parseObj (fuel + 1) input with
    | none => none
    | some (d, rest) =>
      match rest with
      | ',' :: ' ' :: rest2 =>
        (parseItems fuel rest2).map (fun p => (d :: p.1, p.2))
      | _ => some ([d], rest)

/-- json.loads of the whole array. -/
def parseTop (fuel : Nat) : List Char → Option (List JDict × List Char)
  | '[' :: ']' :: rest => some ([], rest)
  | '[' :: rest =>
    match parseItems fuel rest with
    | some (ds, ']' :: rest2) => some (ds, rest2)
    | _ => none
  | _ => none

/-- json.loads on the payloads `_crawler_task` writes: a full-input parse
of a JSON array of flat dicts; `none` models a raised JSONDecodeError.
The input length bounds every count the fuel arguments limit. -/
def jsonLoads (s : String) : Option (List JDict) :=
  match parseTop s.data.length s.data with
  | some (ds, []) => some ds
  | _ => none

/-- Decoded size of one scalar, the measure bounding the parser fuel. -/
def jvalLen : JVal → Nat
  | .s v => v.data.length
  | .b _ => 0

/-- Decoded size of one object. -/
def totalLen : JDict → Nat
  | [] => 0
  | kv :: d => kv.1.data.length + jvalLen kv.2 + 1 + totalLen d

/-- Decoded size of the whole array. -/
def totalArr : List JDict → Nat
  | [] => 0
  | d :: ds => totalLen d + 1 + totalArr ds

/-- Python `getattr(group, property_name)` for the two property names the
module crawls. -/
def propGrants (g : Group) (property_name : String) :
    Option (List ComplexValue) :=
  if property_name == "roles" then g.roles
  else if property_name == "entitlements" then g.entitlements
  else none

/-- ScimSupport._crawler_task: the Permissions snapshot for one group and
grant kind, with the grant list serialized to JSON. -/
def _crawler_task (group : Group) (property_name : String) : Permissions :=
  { object_id := group.id
    object_type := property_name
    raw := jsonDumps (((propGrants group property_name).getD []).map
      ComplexValue.as_dict) }

/-- ScimSupport.get_apply_task: None (synchronously, touching no client)
when the item is not relevant to the migration state; otherwise parse the
raw JSON grants and bind the applier task to the mapped target group id.
A json.loads failure raises JSONDecodeError, a ValueError subclass. -/
def get_apply_task (item : Permissions) (ms : MigrationState) :
    Except Err (Option ApplierCall) :=
  if !_is_item_relevant item ms then .ok none
  else
    match jsonLoads item.raw with
    | none => .error (.valueError "JSONDecodeError")
    | some ds =>
      .ok (some
        { group_id := ms.get_target_id item.object_id
          value := ds.map ComplexValue.from_dict
          property_name := item.object_type })

/-- A grant used by concrete scenarios: the role entry `{"value": "admin"}`
rendered as a ComplexValue. -/
def cvAdmin : ComplexValue :=
  { value := some "admin" }

/-- A client whose group reads always report NotFound (the target group
was deleted on the backend) and whose patches succeed. -/
def absentEnv : ClientEnv :=
  { getResp := fun _ _ => .error (.notFound "deleted")
    patchResp := fun _ _ _ _ => .ok () }

/-- A client that steadily serves the same group record and accepts every
patch: the state after a fully propagated earlier apply. -/
def steadyEnv (g : Group) : ClientEnv :=
  { getResp := fun _ _ => .ok g
    patchResp := fun _ _ _ _ => .ok () }

/-- A client whose reads always find the group `gPresent` (which lacks the
requested grant) and whose patches succeed: the grants never become
visible. -/
def staleEnv : ClientEnv :=
  { getResp := fun _ _ => .ok { id := some "G2", roles := some [{ value := some "other" }] }
    patchResp := fun _ _ _ _ => .ok () }

/-- Decidable equality of call results (core provides none for Except). -/
instance {ε α : Type} [DecidableEq ε] [DecidableEq α] : DecidableEq (Except ε α)
  | .error x, .error y =>
    if h : x = y then .isTrue (by rw [h])
    else .isFalse (fun hh => h (Except.error.inj hh))
  | .error _, .ok _ => .isFalse (fun hh => Except.noConfusion hh)
  | .ok _, .error _ => .isFalse (fun hh => Except.noConfusion hh)
  | .ok x, .ok y =>
    if h : x = y then .isTrue (by rw [h])
    else .isFalse (fun hh => h (Except.ok.inj hh))

/- ------------------------------------------------------------------ -/
/- Theorems.                                                          -/
/- ------------------------------------------------------------------ -/

/-- Helper: `ComplexValue.from_dict` inverts `ComplexValue.as_dict`. -/
theorem from_dict_as_dict (c : ComplexValue) :
    ComplexValue.from_dict c.as_dict = c := by
  obtain ⟨d, p, r, t, v⟩ := c
  cases d <;> cases p <;> cases r <;> cases t <;> cases v <;> rfl

/-- C6: the apply task uses two distinct retry instantiations, both
bounded by the configured verification timeout, whose default is 60
seconds; the patch submission retries exactly on DatabricksError, the
verification check exactly on DatabricksError and ValueError. -/
theorem C6_two_retry_instantiations (vt : Option Nat) :
    patchRetryArgs vt ≠ checkRetryArgs vt ∧
    (patchRetryArgs vt).timeout = vt ∧
    (checkRetryArgs vt).timeout = vt ∧
    default_verify_timeout = some 60 ∧
    (∀ e, retryPred (patchRetryArgs vt) e = e.isDatabricksError) ∧
    (∀ e, retryPred (checkRetryArgs vt) e =
      (e.isDatabricksError || e.isValueError)) := by
  refine ⟨?_, rfl, rfl, rfl, ?_, ?_⟩
  · intro h
    have := congrArg RetryArgs.retryOn h
    simp [patchRetryArgs, checkRetryArgs] at this
  · intro e
    simp [retryPred, patchRetryArgs, isInstanceOf, List.any]
  · intro e
    simp [retryPred, checkRetryArgs, isInstanceOf, List.any]
    cases e <;> simp [Err.isDatabricksError, Err.isValueError]

/-- C9: the per-group read path has a strictly higher rate ceiling than
the patch path over the same 60-second window (255 vs 10), and the read
retry triggers only on InternalError. -/
theorem C9_rate_ceilings :
    get_group_rate_limit.max_requests = 255 ∧
    get_group_rate_limit.burst_period_seconds = 60 ∧
    applier_task_rate_limit.max_requests = 10 ∧
    applier_task_rate_limit.burst_period_seconds = 60 ∧
    applier_task_rate_limit.max_requests < get_group_rate_limit.max_requests ∧
    (∀ e, retryPred get_group_retry_args e = e.isInternalError) := by
  refine ⟨rfl, rfl, rfl, rfl, by decide, ?_⟩
  intro e
  simp [retryPred, get_group_retry_args, isInstanceOf, List.any]

/-- C2: per crawled group, zero tasks when both grant lists are empty or
None, exactly one "roles" task when the role list is non-empty, exactly
one "entitlements" task when the entitlement list is non-empty, and never
more than one task per kind. -/
theorem C2_crawler_task_counts (groups : List Group) (g : Group) :
    get_crawler_tasks groups = groups.flatMap crawlerTasksFor ∧
    ((g.roles = none ∨ g.roles = some []) →
      (g.entitlements = none ∨ g.entitlements = some []) →
      crawlerTasksFor g = []) ∧
    (∀ l, g.roles = some l → l ≠ [] →
      ((crawlerTasksFor g).filter (fun t => t.2 == "roles")).length = 1) ∧
    (∀ l, g.entitlements = some l → l ≠ [] →
      ((crawlerTasksFor g).filter (fun t => t.2 == "entitlements")).length = 1) ∧
    ((crawlerTasksFor g).filter (fun t => t.2 == "roles")).length ≤ 1 ∧
    ((crawlerTasksFor g).filter (fun t => t.2 == "entitlements")).length ≤ 1 ∧
    (∀ t ∈ crawlerTasksFor g, t.1 = g) := by
  refine ⟨rfl, ?_, ?_, ?_, ?_, ?_, ?_⟩
  · rintro (hr | hr) (he | he) <;>
      simp [crawlerTasksFor, hr, he, listTruthy]
  · rintro l hl hne
    have ht : listTruthy g.roles = true := by
      simp [listTruthy, hl, List.isEmpty_iff, hne]
    cases he : listTruthy g.entitlements <;>
      simp [crawlerTasksFor, ht, he, List.filter]
  · rintro l hl hne
    have ht : listTruthy g.entitlements = true := by
      simp [listTruthy, hl, List.isEmpty_iff, hne]
    cases hr : listTruthy g.roles <;>
      simp [crawlerTasksFor, ht, hr, List.filter]
  · cases hr : listTruthy g.roles <;> cases he : listTruthy g.entitlements <;>
      simp [crawlerTasksFor, hr, he, List.filter]
  · cases hr : listTruthy g.roles <;> cases he : listTruthy g.entitlements <;>
      simp [crawlerTasksFor, hr, he, List.filter]
  · intro t ht
    have hc : t = (g, "roles") ∨ t = (g, "entitlements") := by
      cases hr : listTruthy g.roles <;> cases he : listTruthy g.entitlements <;>
        simp [crawlerTasksFor, hr, he] at ht <;> tauto
    rcases hc with h | h <;> simp [h]

/-- C2 witness: a group with one role and no entitlements yields exactly
one "roles" task and no "entitlements" task. -/
theorem C2_crawler_task_counts_witness :
    ((crawlerTasksFor { id := some "G1", roles := some [cvAdmin] }).filter
        (fun t => t.2 == "roles")).length = 1 ∧
    crawlerTasksFor { id := some "G1" } = [] := by
  refine ⟨?_, ?_⟩
  · exact (C2_crawler_task_counts [] { id := some "G1", roles := some [cvAdmin] }).2.2.1
      [cvAdmin] rfl (by decide)
  · exact (C2_crawler_task_counts [] { id := some "G1" }).2.1 (Or.inl rfl) (Or.inl rfl)

/-- C4: the safe wrappers turn PermissionDenied and NotFound into an
absent value plus a logged warning naming the group id, pass a successful
response through, and propagate every other error unchanged. -/
theorem C4_safe_wrappers (group_id : String) :
    (∀ m, safeGetNarrow group_id (.error (.permissionDenied m)) =
      (.ok none, ["permission denied: " ++ group_id])) ∧
    (∀ m, safeGetNarrow group_id (.error (.notFound m)) =
      (.ok none, ["removed on backend: " ++ group_id])) ∧
    (∀ g, safeGetNarrow group_id (.ok g) = (.ok (some g), [])) ∧
    (∀ e, e.isPermissionDenied = false → e.isNotFound = false →
      safeGetNarrow group_id (.error e) = (.error e, [])) ∧
    (∀ m, safePatchNarrow group_id (.error (.permissionDenied m)) =
      (.ok none, ["permission denied: " ++ group_id])) ∧
    (∀ m, safePatchNarrow group_id (.error (.notFound m)) =
      (.ok none, ["removed on backend: " ++ group_id])) ∧
    (∀ u, safePatchNarrow group_id (.ok u) = (.ok (some u), [])) ∧
    (∀ e, e.isPermissionDenied = false → e.isNotFound = false →
      safePatchNarrow group_id (.error e) = (.error e, [])) ∧
    (∀ env st, _safe_get_group env group_id st =
      ((safeGetNarrow group_id (env.getResp st.gets group_id)).1,
        { st with
          gets := st.gets + 1
          logs := st.logs ++ (safeGetNarrow group_id (env.getResp st.gets group_id)).2 })) := by
  refine ⟨fun m => rfl, fun m => rfl, fun g => rfl, ?_, fun m => rfl,
    fun m => rfl, fun u => rfl, ?_, fun env st => rfl⟩
  · intro e h1 h2
    cases e <;> simp_all [Err.isPermissionDenied, Err.isNotFound, safeGetNarrow]
  · intro e h1 h2
    cases e <;> simp_all [Err.isPermissionDenied, Err.isNotFound, safePatchNarrow]

/-- C4 witness: at group id "G7", an InternalError propagates unchanged
while NotFound becomes an absent value with a warning. -/
theorem C4_safe_wrappers_witness :
    safeGetNarrow "G7" (.error (.internalError "boom")) =
      (.error (.internalError "boom"), []) ∧
    safeGetNarrow "G7" (.error (.notFound "gone")) =
      (.ok none, ["removed on backend: G7"]) := by
  exact ⟨(C4_safe_wrappers "G7").2.2.2.1 (.internalError "boom") rfl rfl,
    (C4_safe_wrappers "G7").2.1 "gone"⟩

/-- Helper: every get call in the crawl loop's trace belongs to a kept
(in-scope) group of the input list. -/
theorem crawlFetchLoop_get_mem (env : CrawlEnv) (sys : List String) :
    ∀ (gs : List Group) (gid : Option String),
      ApiCall.get gid ∈ (crawlFetchLoop env sys gs).2 →
      ∃ g ∈ gs.filter (fun g => !_is_group_out_of_scope sys g), g.id = gid := by
  intro gs
  induction gs with
  | nil => intro gid h; simp [crawlFetchLoop] at h
  | cons g gs ih =>
    intro gid h
    rw [crawlFetchLoop] at h
    by_cases hs : _is_group_out_of_scope sys g
    · rw [if_pos hs] at h
      rcases ih gid h with ⟨g0, hg0, hid⟩
      refine ⟨g0, ?_, hid⟩
      simp [List.filter_cons, hs]
      simpa using hg0
    · rw [if_neg hs] at h
      have hkept : (g :: gs).filter (fun g => !_is_group_out_of_scope sys g) =
          g :: gs.filter (fun g => !_is_group_out_of_scope sys g) := by
        simp [List.filter_cons, hs]
      rcases hR : env.getFullResp g.id with e | full
      · simp only [hR] at h
        simp at h
        exact ⟨g, by simp [hkept], h.symm⟩
      · rcases hLoop : crawlFetchLoop env sys gs with ⟨r0, calls⟩
        simp only [hR, hLoop] at h
        rcases r0 with e0 | rest
        all_goals simp at h
        all_goals rcases h with h | h
        · exact ⟨g, by simp [hkept], h.symm⟩
        · rcases ih gid (by simpa [hLoop] using h) with ⟨g0, hg0, hid⟩
          refine ⟨g0, ?_, hid⟩
          rw [hkept]
          exact List.mem_cons_of_mem g hg0
        · exact ⟨g, by simp [hkept], h.symm⟩
        · rcases ih gid (by simpa [hLoop] using h) with ⟨g0, hg0, hid⟩
          refine ⟨g0, ?_, hid⟩
          rw [hkept]
          exact List.mem_cons_of_mem g hg0

/-- Helper: when the crawl loop succeeds, its trace is exactly one get per
kept group, in listing order, and its results are the fetched records. -/
theorem crawlFetchLoop_ok (env : CrawlEnv) (sys : List String) :
    ∀ (gs : List Group) (res : List Group),
      (crawlFetchLoop env sys gs).1 = .ok res →
      (crawlFetchLoop env sys gs).2 =
        (gs.filter (fun g => !_is_group_out_of_scope sys g)).map
          (fun g => ApiCall.get g.id) ∧
      List.Forall₂ (fun g r => env.getFullResp g.id = .ok r)
        (gs.filter (fun g => !_is_group_out_of_scope sys g)) res := by
  intro gs
  induction gs with
  | nil =>
    intro res h
    simp [crawlFetchLoop] at h ⊢
    simp [← h]
  | cons g gs ih =>
    intro res h
    rw [crawlFetchLoop] at h ⊢
    by_cases hs : _is_group_out_of_scope sys g
    · rw [if_pos hs] at h ⊢
      simpa [List.filter_cons, hs] using ih res h
    · rw [if_neg hs] at h ⊢
      have hkept : (g :: gs).filter (fun g => !_is_group_out_of_scope sys g) =
          g :: gs.filter (fun g => !_is_group_out_of_scope sys g) := by
        simp [List.filter_cons, hs]
      rcases hR : env.getFullResp g.id with e | full
      · simp only [hR] at h
        simp at h
      · rcases hLoop : crawlFetchLoop env sys gs with ⟨r0, calls⟩
        simp only [hR, hLoop] at h ⊢
        rcases r0 with e0 | rest
        · simp at h
        · simp at h
          subst h
          rcases ih rest (by simp [hLoop]) with ⟨hcalls, hall⟩
          rw [hLoop] at hcalls
          simp at hcalls
          simp [hkept]
          exact ⟨hcalls, hR, hall⟩

/-- C5: with an expensive attribute (members, roles or entitlements)
requested, the crawler's first remote call lists only the cheap
attributes id, displayName and meta; every per-group get call targets a
group that survived the system-group filter (so excluded groups incur no
get call); and on success the trace is exactly one retried, rate-limited
get per remaining group, whose results are the returned records. -/
theorem C5_crawl_call_pattern (env : CrawlEnv) (sys : List String)
    (attrs : String)
    (h : (strContainsSub attrs "members" || strContainsSub attrs "roles" ||
      strContainsSub attrs "entitlements") = true) :
    ((_list_workspace_groups env sys attrs).2).head? =
      some (ApiCall.list "id,displayName,meta") ∧
    (∀ gid, ApiCall.get gid ∈ (_list_workspace_groups env sys attrs).2 →
      ∃ g ∈ (env.listResp "id,displayName,meta").filter
          (fun g => !_is_group_out_of_scope sys g), g.id = gid) ∧
    (∀ res, (_list_workspace_groups env sys attrs).1 = .ok res →
      (_list_workspace_groups env sys attrs).2 =
        ApiCall.list "id,displayName,meta" ::
          ((env.listResp "id,displayName,meta").filter
            (fun g => !_is_group_out_of_scope sys g)).map
            (fun g => ApiCall.get g.id) ∧
      List.Forall₂ (fun g r => env.getFullResp g.id = .ok r)
        ((env.listResp "id,displayName,meta").filter
          (fun g => !_is_group_out_of_scope sys g)) res) := by
  unfold _list_workspace_groups
  rw [if_pos h]
  refine ⟨rfl, ?_, ?_⟩
  · intro gid hmem
    simp at hmem
    exact crawlFetchLoop_get_mem env sys _ gid hmem
  · intro res hres
    simp at hres ⊢
    rcases crawlFetchLoop_ok env sys _ res hres with ⟨hcalls, hall⟩
    exact ⟨hcalls, hall⟩

/-- A concrete crawl scenario for the C5 witness: one ordinary group, one
system group, full records served per id. -/
def crawlWitnessEnv : CrawlEnv :=
  { listResp := fun attrs =>
      if attrs == "id,displayName,meta" then
        [{ id := some "G1", display_name := some "eng" },
         { id := some "S1", display_name := some "admins" }]
      else []
    getFullResp := fun gid =>
      .ok { id := gid, display_name := some "eng", roles := some [cvAdmin] } }

/-- C5 witness: in the concrete scenario the trace starts with the cheap
list call, the system group "admins" gets no per-group call, and the one
kept group is fetched. -/
theorem C5_crawl_call_pattern_witness :
    ((_list_workspace_groups crawlWitnessEnv ["admins"]
        "id,displayName,roles,entitlements").2).head? =
      some (ApiCall.list "id,displayName,meta") ∧
    (∀ gid, ApiCall.get gid ∈
        (_list_workspace_groups crawlWitnessEnv ["admins"]
          "id,displayName,roles,entitlements").2 →
      ∃ g ∈ (crawlWitnessEnv.listResp "id,displayName,meta").filter
          (fun g => !_is_group_out_of_scope ["admins"] g), g.id = gid) := by
  rcases C5_crawl_call_pattern crawlWitnessEnv ["admins"]
      "id,displayName,roles,entitlements" (by decide) with ⟨h1, h2, _⟩
  exact ⟨h1, h2⟩

/-- C3: `get_apply_task` returns None synchronously whenever no migrated
group's workspace id matches the snapshot's object id (the model performs
no client call at all: the function does not consume a client), and
otherwise returns a task bound to the mapped target group id. -/
theorem C3_apply_task_relevance (item : Permissions) (ms : MigrationState) :
    (_is_item_relevant item ms = false → get_apply_task item ms = .ok none) ∧
    ((∀ g ∈ ms.groups, (some g.id_in_workspace : Option String) ≠ item.object_id) →
      get_apply_task item ms = .ok none) ∧
    (∀ ds, _is_item_relevant item ms = true → jsonLoads item.raw = some ds →
      get_apply_task item ms = .ok (some
        { group_id := ms.get_target_id item.object_id
          value := ds.map ComplexValue.from_dict
          property_name := item.object_type }) ∧
      (ms.get_target_id item.object_id).isSome = true) := by
  refine ⟨?_, ?_, ?_⟩
  · intro h
    simp [get_apply_task, h]
  · intro h
    have hrel : _is_item_relevant item ms = false := by
      simp only [_is_item_relevant, List.any_eq_false]
      intro g hg
      simpa using h g hg
    simp [get_apply_task, hrel]
  · intro ds hrel hds
    refine ⟨by simp [get_apply_task, hrel, hds], ?_⟩
    simp only [_is_item_relevant, List.any_eq_true] at hrel
    rcases hrel with ⟨g, hg, heq⟩
    rcases hf : ms.groups.find?
        (fun g => (some g.id_in_workspace : Option String) == item.object_id) with _ | g0
    · rw [List.find?_eq_none] at hf
      exact absurd heq (by simpa using hf g hg)
    · simp [MigrationState.get_target_id, hf]

/-- C3 witness: with mapping G1 to G2 and a one-role snapshot on G1, the
apply task is bound to target G2; with an unrelated snapshot the result
is None. -/
theorem C3_apply_task_relevance_witness :
    (get_apply_task
        { object_id := some "G1", object_type := "roles",
          raw := jsonDumps [ComplexValue.as_dict cvAdmin] }
        { groups := [{ id_in_workspace := "G1", id_in_target := "G2" }] } =
      .ok (some
        { group_id := MigrationState.get_target_id
            { groups := [{ id_in_workspace := "G1", id_in_target := "G2" }] }
            (some "G1")
          value := [[(("value" : String), JVal.s "admin")]].map ComplexValue.from_dict
          property_name := "roles" })) ∧
    get_apply_task
        { object_id := some "G9", object_type := "roles",
          raw := jsonDumps [ComplexValue.as_dict cvAdmin] }
        { groups := [{ id_in_workspace := "G1", id_in_target := "G2" }] } =
      .ok none := by
  constructor
  · exact ((C3_apply_task_relevance _ _).2.2 [[(("value" : String), JVal.s "admin")]]
      (by decide) (by decide)).1
  · exact (C3_apply_task_relevance _ _).1 (by decide)

/-- Helper: a successful retried run means some attempt of the wrapped
operation returned that value. -/
theorem retriedRun_ok_attempt {α} (p : Err → Bool)
    (f : NetState → Except Err α × NetState) :
    ∀ (fuel : Nat) (st st2 : NetState) (a : α),
      retriedRun p f fuel st = (.ok a, st2) → ∃ s, (f s).1 = .ok a := by
  intro fuel
  induction fuel with
  | zero =>
    intro st st2 a h
    rcases hf : f st with ⟨r, s2⟩
    rw [retriedRun, hf] at h
    rcases r with e | a0
    · simp at h
      split_ifs at h <;> simp at h
    · simp at h
      exact ⟨st, by simp [hf, h.1]⟩
  | succ n ih =>
    intro st st2 a h
    rcases hf : f st with ⟨r, s2⟩
    rw [retriedRun, hf] at h
    rcases r with e | a0
    · simp at h
      split_ifs at h with hp
      · exact ih s2 st2 a h
      · simp at h
    · simp at h
      exact ⟨st, by simp [hf, h.1]⟩

/-- Helper: a failed retried run either propagated a non-retryable error
raised by some attempt, or timed out wrapping a retryable error raised by
some attempt. -/
theorem retriedRun_error_attempt {α} (p : Err → Bool)
    (f : NetState → Except Err α × NetState) :
    ∀ (fuel : Nat) (st st2 : NetState) (e : Err),
      retriedRun p f fuel st = (.error e, st2) →
      (∃ s, (f s).1 = .error e ∧ p e = false) ∨
      (∃ e0, e = .timeoutError e0 ∧ p e0 = true ∧
        ∃ s, (f s).1 = .error e0) := by
  intro fuel
  induction fuel with
  | zero =>
    intro st st2 e h
    rcases hf : f st with ⟨r, s2⟩
    rw [retriedRun, hf] at h
    rcases r with e1 | a0
    · simp at h
      split_ifs at h with hp
      · simp at h
        exact Or.inr ⟨e1, h.1.symm, hp, st, by simp [hf]⟩
      · simp at h
        exact Or.inl ⟨st, by simp [hf, h.1], by rw [← h.1]; simpa using hp⟩
    · simp at h
  | succ n ih =>
    intro st st2 e h
    rcases hf : f st with ⟨r, s2⟩
    rw [retriedRun, hf] at h
    rcases r with e1 | a0
    · simp at h
      split_ifs at h with hp
      · exact ih s2 st2 e h
      · simp at h
        exact Or.inl ⟨st, by simp [hf, h.1], by rw [← h.1]; simpa using hp⟩
    · simp at h

/-- Helper: an error surfaced by `_safe_patch_group` is exactly the raw
client error of that call. -/
theorem safe_patch_group_error {env : ClientEnv} {gid : String}
    {ops : List Patch} {sch : List String} {s : NetState} {e : Err} :
    (_safe_patch_group env gid ops sch s).1 = .error e →
    env.patchResp s.patches gid ops sch = .error e := by
  intro h
  rcases hR : env.patchResp s.patches gid ops sch with e0 | u
  · cases e0 <;>
      simp [_safe_patch_group, wsGroupsPatch, safePatchNarrow, hR] at h <;>
      simp [← h]
  · simp [_safe_patch_group, wsGroupsPatch, safePatchNarrow, hR] at h

/-- Helper: an inflight check that returns True read the group from the
client and its decision accepted that group. -/
theorem inflight_ok_true {env : ClientEnv} {gid : String}
    {value : List ComplexValue} {prop : String} {s : NetState} :
    (_inflight_check env gid value prop s).1 = .ok true →
    ∃ g, env.getResp s.gets gid = .ok g ∧
      inflightDecision gid value prop (some g) = .ok true := by
  intro h
  rcases hR : env.getResp s.gets gid with e | g
  · cases e <;>
      simp [_inflight_check, _safe_get_group, wsGroupsGet, safeGetNarrow, hR,
        inflightDecision] at h
  · refine ⟨g, rfl, ?_⟩
    simpa [_inflight_check, _safe_get_group, wsGroupsGet, safeGetNarrow, hR]
      using h

/-- Helper: an inflight check that returns False read an absent group:
the client reported PermissionDenied or NotFound on that get. -/
theorem inflight_ok_false {env : ClientEnv} {gid : String}
    {value : List ComplexValue} {prop : String} {s : NetState} :
    (_inflight_check env gid value prop s).1 = .ok false →
    ∃ m, env.getResp s.gets gid = .error (.permissionDenied m) ∨
      env.getResp s.gets gid = .error (.notFound m) := by
  intro h
  rcases hR : env.getResp s.gets gid with e | g
  · cases e with
    | permissionDenied m => exact ⟨m, Or.inl rfl⟩
    | notFound m => exact ⟨m, Or.inr rfl⟩
    | internalError m =>
      simp [_inflight_check, _safe_get_group, wsGroupsGet, safeGetNarrow, hR] at h
    | otherDatabricks m =>
      simp [_inflight_check, _safe_get_group, wsGroupsGet, safeGetNarrow, hR] at h
    | valueError m =>
      simp [_inflight_check, _safe_get_group, wsGroupsGet, safeGetNarrow, hR] at h
    | timeoutError c =>
      simp [_inflight_check, _safe_get_group, wsGroupsGet, safeGetNarrow, hR] at h
  · exfalso
    simp [_inflight_check, _safe_get_group, wsGroupsGet, safeGetNarrow, hR,
      inflightDecision] at h
    split_ifs at h <;> simp at h

/-- Helper: an inflight check that raised either propagated the raw
client error of its read, or raised the ValueError carrying the inflight
message for the observed group. -/
theorem inflight_error {env : ClientEnv} {gid : String}
    {value : List ComplexValue} {prop : String} {s : NetState} {e : Err} :
    (_inflight_check env gid value prop s).1 = .error e →
    env.getResp s.gets gid = .error e ∨
      ∃ g, env.getResp s.gets gid = .ok g ∧
        e = .valueError (inflightMsg gid value g) := by
  intro h
  rcases hR : env.getResp s.gets gid with e0 | g
  · cases e0 <;>
      simp [_inflight_check, _safe_get_group, wsGroupsGet, safeGetNarrow,
        inflightDecision, hR] at h <;>
      exact Or.inl (by rw [h])
  · refine Or.inr ⟨g, rfl, ?_⟩
    simp [_inflight_check, _safe_get_group, wsGroupsGet, safeGetNarrow, hR,
      inflightDecision] at h
    split_ifs at h <;> simp_all

/-- Helper: `_applier_task` unfolded to its two retried phases. -/
theorem applier_task_eq (env : ClientEnv) (vt : Option Nat) (fuel : Nat)
    (gid : String) (value : List ComplexValue) (prop : String)
    (st : NetState) :
    _applier_task env vt fuel gid value prop st =
      match retriedRun (retryPred (patchRetryArgs vt))
          (fun s => _safe_patch_group env gid
            [{ op := PatchOp.add, path := prop,
               value := value.map ComplexValue.as_dict }] patchSchemas s)
          fuel st with
      | (.error e, st2) => (.error e, st2)
      | (.ok _, st2) =>
        retriedRun (retryPred (checkRetryArgs vt))
          (fun s => _inflight_check env gid value prop s) fuel st2 := rfl

/-- Helper: the inflight message decomposes around the group id. -/
theorem inflightMsg_data_parts (gid : String) (value : List ComplexValue)
    (g : Group) :
    (inflightMsg gid value g).data =
      inflightMsgHead.data ++ gid.data ++
        (inflightMsgMid1 ++ pyJDictListRepr (value.map ComplexValue.as_dict) ++
          inflightMsgMid2 ++ Group.as_dict_repr g ++ inflightMsgTail).data := by
  simp [inflightMsg, String.data_append, List.append_assoc]

/-- Helper: an optional list with a member is truthy. -/
theorem listTruthy_of_mem {α} {o : Option (List α)} {m : α}
    (hm : m ∈ o.getD []) : listTruthy o = true := by
  cases o with
  | none => simp at hm
  | some l =>
    simp [listTruthy, List.isEmpty_iff]
    intro h
    rw [h] at hm
    simp at hm

/-- C7: when the group exists but a requested grant is missing from its
list of the requested kind, the check raises the not-yet-visible
ValueError, whose message contains the target group id, the requested
grants and the observed group record. -/
theorem C7_missing_grant_raises (gid : String) (value : List ComplexValue)
    (g : Group) (m : ComplexValue) :
    (m ∈ value → m ∉ g.roles.getD [] →
      inflightDecision gid value "roles" (some g) =
        .error (.valueError (inflightMsg gid value g))) ∧
    (m ∈ value → m ∉ g.entitlements.getD [] →
      inflightDecision gid value "entitlements" (some g) =
        .error (.valueError (inflightMsg gid value g))) ∧
    (∃ l r, (inflightMsg gid value g).data = l ++ gid.data ++ r) ∧
    (∃ l r, (inflightMsg gid value g).data =
      l ++ (pyJDictListRepr (value.map ComplexValue.as_dict)).data ++ r) ∧
    (∃ l r, (inflightMsg gid value g).data =
      l ++ (Group.as_dict_repr g).data ++ r) := by
  refine ⟨?_, ?_, ?_, ?_, ?_⟩
  · intro hm hnm
    have hall : value.all (fun e => (g.roles.getD []).contains e) = false := by
      by_contra hh
      rw [Bool.not_eq_false, List.all_eq_true] at hh
      exact hnm (List.elem_iff.mp (hh m hm))
    simp [inflightDecision, hall]
    intro _
    exact ⟨m, hm, hnm⟩
  · intro hm hnm
    have hall : value.all (fun e => (g.entitlements.getD []).contains e) = false := by
      by_contra hh
      rw [Bool.not_eq_false, List.all_eq_true] at hh
      exact hnm (List.elem_iff.mp (hh m hm))
    simp [inflightDecision, hall]
    intro _
    exact ⟨m, hm, hnm⟩
  · exact ⟨inflightMsgHead.data,
      (inflightMsgMid1 ++ pyJDictListRepr (value.map ComplexValue.as_dict) ++
        inflightMsgMid2 ++ Group.as_dict_repr g ++ inflightMsgTail).data,
      by simp [inflightMsg, String.data_append, List.append_assoc]⟩
  · exact ⟨(inflightMsgHead ++ gid ++ inflightMsgMid1).data,
      (inflightMsgMid2 ++ Group.as_dict_repr g ++ inflightMsgTail).data,
      by simp [inflightMsg, String.data_append, List.append_assoc]⟩
  · exact ⟨(inflightMsgHead ++ gid ++ inflightMsgMid1 ++
        pyJDictListRepr (value.map ComplexValue.as_dict) ++ inflightMsgMid2).data,
      inflightMsgTail.data,
      by simp [inflightMsg, String.data_append, List.append_assoc]⟩

/-- C7 witness: requesting the admin role on a group that only holds the
role "other" raises the ValueError with the inflight message. -/
theorem C7_missing_grant_raises_witness :
    inflightDecision "G2" [cvAdmin] "roles"
        (some { id := some "G2", roles := some [{ value := some "other" }] }) =
      .error (.valueError (inflightMsg "G2" [cvAdmin]
        { id := some "G2", roles := some [{ value := some "other" }] })) := by
  exact (C7_missing_grant_raises "G2" [cvAdmin]
      { id := some "G2", roles := some [{ value := some "other" }] } cvAdmin).1
    (by decide) (by decide)

/-- C8: verification is idempotent with respect to already-present
grants.  For a snapshot grant list (non-empty, per the GroupSnapshot
invariant: the crawler only emits tasks for non-empty lists), a target
group whose list of the requested kind already contains every grant
verifies to True without raising, both at the level of a single check
and for a whole re-run of the apply task against a stable backend. -/
theorem C8_idempotent_verification (gid : String) (value : List ComplexValue)
    (g : Group) (hne : value ≠ []) :
    ((∀ m ∈ value, m ∈ g.roles.getD []) →
      inflightDecision gid value "roles" (some g) = .ok true ∧
      ∀ vt fuel st,
        (_applier_task (steadyEnv g) vt fuel gid value "roles" st).1 = .ok true) ∧
    ((∀ m ∈ value, m ∈ g.entitlements.getD []) →
      inflightDecision gid value "entitlements" (some g) = .ok true ∧
      ∀ vt fuel st,
        (_applier_task (steadyEnv g) vt fuel gid value "entitlements" st).1 =
          .ok true) := by
  constructor
  · intro hall
    have htr : listTruthy g.roles = true := by
      rcases List.exists_mem_of_ne_nil value hne with ⟨m, hm⟩
      exact listTruthy_of_mem (hall m hm)
    have hdec : inflightDecision gid value "roles" (some g) = .ok true := by
      simp [inflightDecision, htr, List.all_eq_true]
      intro m hm
      exact hall m hm
    refine ⟨hdec, ?_⟩
    intro vt fuel st
    simp [_applier_task, retriedRun, _safe_patch_group, wsGroupsPatch,
      safePatchNarrow, _inflight_check, _safe_get_group, wsGroupsGet,
      safeGetNarrow, steadyEnv, hdec]
  · intro hall
    have htr : listTruthy g.entitlements = true := by
      rcases List.exists_mem_of_ne_nil value hne with ⟨m, hm⟩
      exact listTruthy_of_mem (hall m hm)
    have hdec : inflightDecision gid value "entitlements" (some g) = .ok true := by
      simp [inflightDecision, htr, List.all_eq_true]
      intro m hm
      exact hall m hm
    refine ⟨hdec, ?_⟩
    intro vt fuel st
    simp [_applier_task, retriedRun, _safe_patch_group, wsGroupsPatch,
      safePatchNarrow, _inflight_check, _safe_get_group, wsGroupsGet,
      safeGetNarrow, steadyEnv, hdec]

/-- C8 witness: re-applying the admin role to a group that already holds
it returns True, both for the check and for the full apply task. -/
theorem C8_idempotent_verification_witness :
    inflightDecision "G2" [cvAdmin] "roles"
        (some { id := some "G2", roles := some [cvAdmin] }) = .ok true ∧
    (_applier_task (steadyEnv { id := some "G2", roles := some [cvAdmin] })
        default_verify_timeout 3 "G2" [cvAdmin] "roles" {}).1 = .ok true := by
  have h := (C8_idempotent_verification "G2" [cvAdmin]
      { id := some "G2", roles := some [cvAdmin] } (by decide)).1
    (by decide)
  exact ⟨h.1, h.2 default_verify_timeout 3 {}⟩

/-- C1 counterexample: with the backend reporting the target group as
deleted (NotFound), the apply task produced by get_apply_task runs to
completion and returns False — a non-error value that is not True — so
the task neither returns true nor raises. -/
theorem C1_counterexample :
    get_apply_task
        { object_id := some "G1", object_type := "roles",
          raw := jsonDumps [ComplexValue.as_dict cvAdmin] }
        { groups := [{ id_in_workspace := "G1", id_in_target := "G3" }] } =
      .ok (some { group_id := some "G3", value := [cvAdmin], property_name := "roles" }) ∧
    (_applier_task absentEnv default_verify_timeout 3 "G3" [cvAdmin] "roles"
        {}).1 = .ok false ∧
    (Except.ok false : Except Err Bool) ≠ .ok true := by
  refine ⟨by decide, by decide, by decide⟩

/-- C1 corrected: for every well-typed client, the apply task returns
True only after a verification read found the group with every grant
visible; it returns False (without raising) exactly when a verification
read found the group absent (PermissionDenied or NotFound); and when it
fails permanently with a timeout wrapping the not-yet-visible ValueError,
that message is the inflight message, which names the target group id. -/
theorem applier_task_result (env : ClientEnv) (vt : Option Nat) (fuel : Nat)
    (gid : String) (value : List ComplexValue) (prop : String)
    (st : NetState) :
    (∃ st2, (_applier_task env vt fuel gid value prop st).1 =
        (retriedRun (retryPred (checkRetryArgs vt))
          (fun s => _inflight_check env gid value prop s) fuel st2).1) ∨
    (∃ e st2, (_applier_task env vt fuel gid value prop st).1 = .error e ∧
      retriedRun (retryPred (patchRetryArgs vt))
        (fun s => _safe_patch_group env gid
          [{ op := PatchOp.add, path := prop,
             value := value.map ComplexValue.as_dict }] patchSchemas s)
        fuel st = (.error e, st2)) := by
  rw [applier_task_eq]
  rcases hP : retriedRun (retryPred (patchRetryArgs vt))
      (fun s => _safe_patch_group env gid
        [{ op := PatchOp.add, path := prop,
           value := value.map ComplexValue.as_dict }] patchSchemas s)
      fuel st with ⟨pr, pst⟩
  rcases pr with e | u
  · exact Or.inr ⟨e, pst, rfl, rfl⟩
  · exact Or.inl ⟨pst, rfl⟩

/-- C1 corrected: for every well-typed client, the apply task returns
True only after a verification read found the group with every grant
visible; it returns False (without raising) exactly when a verification
read found the group absent (PermissionDenied or NotFound); and when it
fails permanently with a timeout wrapping the not-yet-visible ValueError,
that message is the inflight message, which names the target group id. -/
theorem C1_applier_result (env : ClientEnv) (vt : Option Nat) (fuel : Nat)
    (gid : String) (value : List ComplexValue) (prop : String) (st : NetState)
    (hw : env.wellTyped) :
    ((_applier_task env vt fuel gid value prop st).1 = .ok true →
      ∃ n g, env.getResp n gid = .ok g ∧
        inflightDecision gid value prop (some g) = .ok true) ∧
    ((_applier_task env vt fuel gid value prop st).1 = .ok false →
      ∃ n m, env.getResp n gid = .error (.permissionDenied m) ∨
        env.getResp n gid = .error (.notFound m)) ∧
    (∀ m, (_applier_task env vt fuel gid value prop st).1 =
        .error (.timeoutError (.valueError m)) →
      ∃ g, m = inflightMsg gid value g ∧
        ∃ l r, m.data = l ++ gid.data ++ r) := by
  rcases applier_task_result env vt fuel gid value prop st with
    ⟨st2, heq⟩ | ⟨e, st2, heq, hP⟩
  · rcases hC : retriedRun (retryPred (checkRetryArgs vt))
        (fun s => _inflight_check env gid value prop s) fuel st2 with ⟨cr, cst⟩
    rw [hC] at heq
    simp at heq
    refine ⟨?_, ?_, ?_⟩
    · intro h
      rw [heq] at h
      subst h
      rcases retriedRun_ok_attempt _ _ fuel st2 cst _ hC with ⟨s, hfs⟩
      rcases inflight_ok_true hfs with ⟨g, hg, hdec⟩
      exact ⟨s.gets, g, hg, hdec⟩
    · intro h
      rw [heq] at h
      subst h
      rcases retriedRun_ok_attempt _ _ fuel st2 cst _ hC with ⟨s, hfs⟩
      rcases inflight_ok_false hfs with ⟨m, hm⟩
      exact ⟨s.gets, m, hm⟩
    · intro m h
      rw [heq] at h
      subst h
      rcases retriedRun_error_attempt _ _ fuel st2 cst _ hC with
        ⟨s, hfs, _⟩ | ⟨e0, heq0, hpe, s, hfs⟩
      · rcases inflight_error hfs with hraw | ⟨g, _, habs⟩
        · have hbad := hw.1 _ _ _ hraw
          simp [Err.isDatabricksError] at hbad
        · simp at habs
      · have h0 := Err.timeoutError.inj heq0
        subst h0
        rcases inflight_error hfs with hraw | ⟨g, _, habs⟩
        · have hbad := hw.1 _ _ _ hraw
          simp [Err.isDatabricksError] at hbad
        · have hm2 := Err.valueError.inj habs
          subst hm2
          exact ⟨g, rfl, inflightMsgHead.data,
            (inflightMsgMid1 ++
              pyJDictListRepr (value.map ComplexValue.as_dict) ++
              inflightMsgMid2 ++ Group.as_dict_repr g ++
              inflightMsgTail).data,
            inflightMsg_data_parts gid value g⟩
  · refine ⟨?_, ?_, ?_⟩
    · intro h
      rw [heq] at h
      simp at h
    · intro h
      rw [heq] at h
      simp at h
    · intro m h
      rw [heq] at h
      simp at h
      subst h
      rcases retriedRun_error_attempt _ _ fuel st st2 _ hP with
        ⟨s, hfs, _⟩ | ⟨e0, heq0, hpe, s, hfs⟩
      · have hraw := safe_patch_group_error hfs
        have hbad := hw.2 _ _ _ _ _ hraw
        simp [Err.isDatabricksError] at hbad
      · have h0 := Err.timeoutError.inj heq0
        subst h0
        simp [retryPred, patchRetryArgs, isInstanceOf,
          Err.isDatabricksError] at hpe

/-- C1 witness: against the deleting backend, the task's False return is
explained by the amended theorem as an absent read. -/
theorem C1_applier_result_witness :
    (_applier_task absentEnv default_verify_timeout 3 "G3" [cvAdmin] "roles"
        {}).1 = .ok false ∧
    (∃ n m, absentEnv.getResp n "G3" = .error (.permissionDenied m) ∨
      absentEnv.getResp n "G3" = .error (.notFound m)) := by
  have hw : absentEnv.wellTyped := by
    constructor
    · intro n gid e h
      simp [absentEnv] at h
      simp [← h, Err.isDatabricksError]
    · intro n gid ops sch e h
      simp [absentEnv] at h
  exact ⟨by decide,
    (C1_applier_result absentEnv default_verify_timeout 3 "G3" [cvAdmin]
      "roles" {} hw).2.1 (by decide)⟩

/-- Helper: parsing a printed hex digit gives the digit back. -/
theorem hexVal_hexDigitChar (d : Nat) (h : d < 16) :
    hexVal (hexDigitChar d) = some d := by
  interval_cases d <;> decide

/-- Helper: parsing four printed hex digits gives their value back. -/
theorem parseHex4_digits (a b c d : Nat) (ha : a < 16) (hb : b < 16)
    (hc : c < 16) (hd : d < 16) (rest : List Char) :
    parseHex4 (hexDigitChar a :: hexDigitChar b :: hexDigitChar c ::
      hexDigitChar d :: rest) = some (a * 4096 + b * 256 + c * 16 + d, rest) := by
  simp [parseHex4, hexVal_hexDigitChar a ha, hexVal_hexDigitChar b hb,
    hexVal_hexDigitChar c hc, hexVal_hexDigitChar d hd]

/-- Helper: parsing a printed non-surrogate `\uXXXX` escape decodes the
code point. -/
theorem parseEscape_u (n : Nat) (hn : n < 65536)
    (hs : ¬(55296 ≤ n ∧ n < 57344)) (rest : List Char) :
    parseEscape ('u' :: hexDigitChar (n / 4096 % 16) ::
        hexDigitChar (n / 256 % 16) :: hexDigitChar (n / 16 % 16) ::
        hexDigitChar (n % 16) :: rest) =
      some (Char.ofNat n, rest) := by
  have hhex := parseHex4_digits (n / 4096 % 16) (n / 256 % 16) (n / 16 % 16)
    (n % 16) (by omega) (by omega) (by omega) (by omega) rest
  have harith : n / 4096 % 16 * 4096 + n / 256 % 16 * 256 +
      n / 16 % 16 * 16 + n % 16 = n := by omega
  rw [parseEscape]
  rw [if_neg (by decide), if_neg (by decide), if_neg (by decide),
    if_neg (by decide), if_neg (by decide), if_neg (by decide),
    if_neg (by decide), if_neg (by decide), if_pos rfl]
  rw [harith] at hhex
  simp only [hhex]
  rw [if_neg (by omega), if_neg (by omega)]

/-- Helper: parsing a printed surrogate pair recombines the astral code
point. -/
theorem parseEscape_surrogatePair (n : Nat) (h65 : 65536 ≤ n)
    (hlt : n < 1114112) (rest : List Char) :
    parseEscape ('u' ::
        hexDigitChar ((55296 + (n - 65536) / 1024) / 4096 % 16) ::
        hexDigitChar ((55296 + (n - 65536) / 1024) / 256 % 16) ::
        hexDigitChar ((55296 + (n - 65536) / 1024) / 16 % 16) ::
        hexDigitChar ((55296 + (n - 65536) / 1024) % 16) ::
        '\\' :: 'u' ::
        hexDigitChar ((56320 + (n - 65536) % 1024) / 4096 % 16) ::
        hexDigitChar ((56320 + (n - 65536) % 1024) / 256 % 16) ::
        hexDigitChar ((56320 + (n - 65536) % 1024) / 16 % 16) ::
        hexDigitChar ((56320 + (n - 65536) % 1024) % 16) :: rest) =
      some (Char.ofNat n, rest) := by
  have hhi := parseHex4_digits ((55296 + (n - 65536) / 1024) / 4096 % 16)
    ((55296 + (n - 65536) / 1024) / 256 % 16)
    ((55296 + (n - 65536) / 1024) / 16 % 16)
    ((55296 + (n - 65536) / 1024) % 16)
    (by omega) (by omega) (by omega) (by omega)
    ('\\' :: 'u' ::
      hexDigitChar ((56320 + (n - 65536) % 1024) / 4096 % 16) ::
      hexDigitChar ((56320 + (n - 65536) % 1024) / 256 % 16) ::
      hexDigitChar ((56320 + (n - 65536) % 1024) / 16 % 16) ::
      hexDigitChar ((56320 + (n - 65536) % 1024) % 16) :: rest)
  have hlo := parseHex4_digits ((56320 + (n - 65536) % 1024) / 4096 % 16)
    ((56320 + (n - 65536) % 1024) / 256 % 16)
    ((56320 + (n - 65536) % 1024) / 16 % 16)
    ((56320 + (n - 65536) % 1024) % 16)
    (by omega) (by omega) (by omega) (by omega) rest
  have hhiv : (55296 + (n - 65536) / 1024) / 4096 % 16 * 4096 +
      (55296 + (n - 65536) / 1024) / 256 % 16 * 256 +
      (55296 + (n - 65536) / 1024) / 16 % 16 * 16 +
      (55296 + (n - 65536) / 1024) % 16 = 55296 + (n - 65536) / 1024 := by
    omega
  have hlov : (56320 + (n - 65536) % 1024) / 4096 % 16 * 4096 +
      (56320 + (n - 65536) % 1024) / 256 % 16 * 256 +
      (56320 + (n - 65536) % 1024) / 16 % 16 * 16 +
      (56320 + (n - 65536) % 1024) % 16 = 56320 + (n - 65536) % 1024 := by
    omega
  rw [hhiv] at hhi
  rw [hlov] at hlo
  rw [parseEscape]
  rw [if_neg (by decide), if_neg (by decide), if_neg (by decide),
    if_neg (by decide), if_neg (by decide), if_neg (by decide),
    if_neg (by decide), if_neg (by decide), if_pos rfl]
  simp only [hhi]
  rw [if_pos (by omega)]
  simp only [hlo]
  rw [if_pos (by omega)]
  have hcomb : 65536 + (55296 + (n - 65536) / 1024 - 55296) * 1024 +
      (56320 + (n - 65536) % 1024 - 56320) = n := by omega
  rw [hcomb]

/-- Helper: one escape step of the string scanner. -/
theorem parseStringBody_esc_step (f : Nat) (ch : Char) (r rest2 : List Char)
    (hesc : parseEscape r = some (ch, rest2)) :
    parseStringBody (f + 1) ('\\' :: r) =
      (parseStringBody f rest2).map (fun p => (ch :: p.1, p.2)) := by
  rw [parseStringBody, if_neg (by decide), if_pos rfl, hesc]

/-- Helper: the string scanner inverts the json.dumps escaper, given
fuel above the decoded length. -/
theorem parseStringBody_encode :
    ∀ (s : List Char) (fuel : Nat), s.length < fuel → ∀ (rest : List Char),
      parseStringBody fuel (s.flatMap jsonEscChar ++ ('"' :: rest)) =
        some (s, rest) := by
  intro s
  induction s with
  | nil =>
    intro fuel hf rest
    cases fuel with
    | zero => omega
    | succ f => rfl
  | cons c cs ih =>
    intro fuel hf rest
    cases fuel with
    | zero => omega
    | succ f =>
      have hf' : cs.length < f := by simp at hf; omega
      rw [List.flatMap_cons, List.append_assoc]
      by_cases h1 : c = '\\'
      · subst h1
        have hesc : parseEscape ('\\' :: (cs.flatMap jsonEscChar ++ '"' :: rest)) =
            some ('\\', cs.flatMap jsonEscChar ++ '"' :: rest) := rfl
        rw [show jsonEscChar '\\' ++ (cs.flatMap jsonEscChar ++ '"' :: rest) =
          '\\' :: ('\\' :: (cs.flatMap jsonEscChar ++ '"' :: rest)) from rfl]
        rw [parseStringBody_esc_step f '\\' _ _ hesc, ih f hf' rest]
        rfl
      by_cases h2 : c = '"'
      · subst h2
        have hesc : parseEscape ('"' :: (cs.flatMap jsonEscChar ++ '"' :: rest)) =
            some ('"', cs.flatMap jsonEscChar ++ '"' :: rest) := rfl
        rw [show jsonEscChar '"' ++ (cs.flatMap jsonEscChar ++ '"' :: rest) =
          '\\' :: ('"' :: (cs.flatMap jsonEscChar ++ '"' :: rest)) from rfl]
        rw [parseStringBody_esc_step f '"' _ _ hesc, ih f hf' rest]
        rfl
      by_cases h3 : c = Char.ofNat 8
      · subst h3
        have hesc : parseEscape ('b' :: (cs.flatMap jsonEscChar ++ '"' :: rest)) =
            some (Char.ofNat 8, cs.flatMap jsonEscChar ++ '"' :: rest) := rfl
        rw [show jsonEscChar (Char.ofNat 8) ++ (cs.flatMap jsonEscChar ++ '"' :: rest) =
          '\\' :: ('b' :: (cs.flatMap jsonEscChar ++ '"' :: rest)) from rfl]
        rw [parseStringBody_esc_step f (Char.ofNat 8) _ _ hesc, ih f hf' rest]
        rfl
      by_cases h4 : c = Char.ofNat 9
      · subst h4
        have hesc : parseEscape ('t' :: (cs.flatMap jsonEscChar ++ '"' :: rest)) =
            some (Char.ofNat 9, cs.flatMap jsonEscChar ++ '"' :: rest) := rfl
        rw [show jsonEscChar (Char.ofNat 9) ++ (cs.flatMap jsonEscChar ++ '"' :: rest) =
          '\\' :: ('t' :: (cs.flatMap jsonEscChar ++ '"' :: rest)) from rfl]
        rw [parseStringBody_esc_step f (Char.ofNat 9) _ _ hesc, ih f hf' rest]
        rfl
      by_cases h5 : c = Char.ofNat 10
      · subst h5
        have hesc : parseEscape ('n' :: (cs.flatMap jsonEscChar ++ '"' :: rest)) =
            some (Char.ofNat 10, cs.flatMap jsonEscChar ++ '"' :: rest) := rfl
        rw [show jsonEscChar (Char.ofNat 10) ++ (cs.flatMap jsonEscChar ++ '"' :: rest) =
          '\\' :: ('n' :: (cs.flatMap jsonEscChar ++ '"' :: rest)) from rfl]
        rw [parseStringBody_esc_step f (Char.ofNat 10) _ _ hesc, ih f hf' rest]
        rfl
      by_cases h6 : c = Char.ofNat 12
      · subst h6
        have hesc : parseEscape ('f' :: (cs.flatMap jsonEscChar ++ '"' :: rest)) =
            some (Char.ofNat 12, cs.flatMap jsonEscChar ++ '"' :: rest) := rfl
        rw [show jsonEscChar (Char.ofNat 12) ++ (cs.flatMap jsonEscChar ++ '"' :: rest) =
          '\\' :: ('f' :: (cs.flatMap jsonEscChar ++ '"' :: rest)) from rfl]
        rw [parseStringBody_esc_step f (Char.ofNat 12) _ _ hesc, ih f hf' rest]
        rfl
      by_cases h7 : c = Char.ofNat 13
      · subst h7
        have hesc : parseEscape ('r' :: (cs.flatMap jsonEscChar ++ '"' :: rest)) =
            some (Char.ofNat 13, cs.flatMap jsonEscChar ++ '"' :: rest) := rfl
        rw [show jsonEscChar (Char.ofNat 13) ++ (cs.flatMap jsonEscChar ++ '"' :: rest) =
          '\\' :: ('r' :: (cs.flatMap jsonEscChar ++ '"' :: rest)) from rfl]
        rw [parseStringBody_esc_step f (Char.ofNat 13) _ _ hesc, ih f hf' rest]
        rfl
      by_cases h8 : c.toNat < 32
      · have hjson : jsonEscChar c = uEscape c.toNat := by
          rw [jsonEscChar, if_neg h1, if_neg h2, if_neg h3, if_neg h4,
            if_neg h5, if_neg h6, if_neg h7, if_pos h8]
        rw [hjson]
        rw [show uEscape c.toNat ++ (cs.flatMap jsonEscChar ++ '"' :: rest) =
          '\\' :: ('u' :: hexDigitChar (c.toNat / 4096 % 16) ::
            hexDigitChar (c.toNat / 256 % 16) ::
            hexDigitChar (c.toNat / 16 % 16) :: hexDigitChar (c.toNat % 16) ::
            (cs.flatMap jsonEscChar ++ '"' :: rest)) from rfl]
        have hesc := parseEscape_u c.toNat (by omega) (by omega)
          (cs.flatMap jsonEscChar ++ '"' :: rest)
        rw [parseStringBody_esc_step f (Char.ofNat c.toNat) _ _ hesc,
          ih f hf' rest, Char.ofNat_toNat]
        rfl
      by_cases h9 : 126 < c.toNat
      · have hvalid : c.toNat < 55296 ∨ (57343 < c.toNat ∧ c.toNat < 1114112) :=
          c.valid
        by_cases h10 : c.toNat < 65536
        · have hjson : jsonEscChar c = uEscape c.toNat := by
            rw [jsonEscChar, if_neg h1, if_neg h2, if_neg h3, if_neg h4,
              if_neg h5, if_neg h6, if_neg h7, if_neg h8, if_pos h9,
              if_pos h10]
          rw [hjson]
          rw [show uEscape c.toNat ++ (cs.flatMap jsonEscChar ++ '"' :: rest) =
            '\\' :: ('u' :: hexDigitChar (c.toNat / 4096 % 16) ::
              hexDigitChar (c.toNat / 256 % 16) ::
              hexDigitChar (c.toNat / 16 % 16) :: hexDigitChar (c.toNat % 16) ::
              (cs.flatMap jsonEscChar ++ '"' :: rest)) from rfl]
          have hesc := parseEscape_u c.toNat h10 (by omega)
            (cs.flatMap jsonEscChar ++ '"' :: rest)
          rw [parseStringBody_esc_step f (Char.ofNat c.toNat) _ _ hesc,
            ih f hf' rest, Char.ofNat_toNat]
          rfl
        · have hjson : jsonEscChar c =
              uEscape (55296 + (c.toNat - 65536) / 1024) ++
                uEscape (56320 + (c.toNat - 65536) % 1024) := by
            rw [jsonEscChar, if_neg h1, if_neg h2, if_neg h3, if_neg h4,
              if_neg h5, if_neg h6, if_neg h7, if_neg h8, if_pos h9,
              if_neg h10]
          rw [hjson]
          rw [show (uEscape (55296 + (c.toNat - 65536) / 1024) ++
              uEscape (56320 + (c.toNat - 65536) % 1024)) ++
              (cs.flatMap jsonEscChar ++ '"' :: rest) =
            '\\' :: ('u' ::
              hexDigitChar ((55296 + (c.toNat - 65536) / 1024) / 4096 % 16) ::
              hexDigitChar ((55296 + (c.toNat - 65536) / 1024) / 256 % 16) ::
              hexDigitChar ((55296 + (c.toNat - 65536) / 1024) / 16 % 16) ::
              hexDigitChar ((55296 + (c.toNat - 65536) / 1024) % 16) ::
              '\\' :: 'u' ::
              hexDigitChar ((56320 + (c.toNat - 65536) % 1024) / 4096 % 16) ::
              hexDigitChar ((56320 + (c.toNat - 65536) % 1024) / 256 % 16) ::
              hexDigitChar ((56320 + (c.toNat - 65536) % 1024) / 16 % 16) ::
              hexDigitChar ((56320 + (c.toNat - 65536) % 1024) % 16) ::
              (cs.flatMap jsonEscChar ++ '"' :: rest)) from rfl]
          have hesc := parseEscape_surrogatePair c.toNat (by omega) (by omega)
            (cs.flatMap jsonEscChar ++ '"' :: rest)
          rw [parseStringBody_esc_step f (Char.ofNat c.toNat) _ _ hesc,
            ih f hf' rest, Char.ofNat_toNat]
          rfl
      · have hjson : jsonEscChar c = [c] := by
          rw [jsonEscChar, if_neg h1, if_neg h2, if_neg h3, if_neg h4,
            if_neg h5, if_neg h6, if_neg h7, if_neg h8, if_neg h9]
        rw [hjson]
        rw [show ([c] : List Char) ++ (cs.flatMap jsonEscChar ++ '"' :: rest) =
          c :: (cs.flatMap jsonEscChar ++ '"' :: rest) from rfl]
        rw [parseStringBody, if_neg h2, if_neg h1, ih f hf' rest]
        rfl

/-- Helper: the scalar parser inverts the scalar renderer. -/
theorem parseJVal_render (fuel : Nat) (v : JVal) (hfit : jvalLen v < fuel)
    (rest : List Char) :
    parseJVal fuel (renderJVal v ++ rest) = some (v, rest) := by
  cases v with
  | s str =>
    have hshape : renderJVal (JVal.s str) ++ rest =
        '"' :: (str.data.flatMap jsonEscChar ++ ('"' :: rest)) := by
      simp [renderJVal, renderJString]
    rw [hshape]
    rw [show parseJVal fuel
        ('"' :: (str.data.flatMap jsonEscChar ++ ('"' :: rest))) =
      (parseStringBody fuel (str.data.flatMap jsonEscChar ++ ('"' :: rest))).map
        (fun p => (JVal.s ⟨p.1⟩, p.2)) from rfl]
    rw [parseStringBody_encode str.data fuel hfit rest]
    rfl
  | b bv => cases bv <;> rfl

/-- Helper: the member parser inverts the pair renderer for non-empty
dicts. -/
theorem parsePairs_render :
    ∀ (d : JDict), d ≠ [] → ∀ (fuel : Nat), totalLen d < fuel →
      ∀ (rest : List Char),
        parsePairs fuel (sepConcat (d.map renderPair) ++ ('\x7d' :: rest)) =
          some (d, rest) := by
  intro d
  induction d with
  | nil => intro h; exact absurd rfl h
  | cons kv d' ih =>
    intro _ fuel hfit rest
    obtain ⟨k, v⟩ := kv
    cases fuel with
    | zero => omega
    | succ f =>
      cases d' with
      | nil =>
        have hshape : sepConcat (([((k : String), v)]).map renderPair) ++
              ('\x7d' :: rest) =
            '"' :: (k.data.flatMap jsonEscChar ++
              ('"' :: (':' :: ' ' :: (renderJVal v ++ ('\x7d' :: rest))))) := by
          simp [sepConcat, renderPair, renderJString, List.append_assoc]
        rw [hshape]
        have hkey := parseStringBody_encode k.data (f + 1)
          (by have hdl : k.data.length = k.length := rfl
              simp [totalLen] at hfit; omega)
          (':' :: ' ' :: (renderJVal v ++ ('\x7d' :: rest)))
        have hval := parseJVal_render (f + 1) v
          (by simp [totalLen] at hfit; omega) ('\x7d' :: rest)
        simp only [parsePairs, hkey, hval]
      | cons kv2 d'' =>
        have hshape : sepConcat ((((k : String), v) :: kv2 :: d'').map renderPair) ++
              ('\x7d' :: rest) =
            '"' :: (k.data.flatMap jsonEscChar ++
              ('"' :: (':' :: ' ' :: (renderJVal v ++
                (',' :: ' ' :: (sepConcat ((kv2 :: d'').map renderPair) ++
                  ('\x7d' :: rest))))))) := by
          simp [sepConcat, renderPair, renderJString, List.append_assoc]
        rw [hshape]
        have hkey := parseStringBody_encode k.data (f + 1)
          (by have hdl : k.data.length = k.length := rfl
              simp [totalLen] at hfit; omega)
          (':' :: ' ' :: (renderJVal v ++
            (',' :: ' ' :: (sepConcat ((kv2 :: d'').map renderPair) ++
              ('\x7d' :: rest)))))
        have hval := parseJVal_render (f + 1) v
          (by simp [totalLen] at hfit; omega)
          (',' :: ' ' :: (sepConcat ((kv2 :: d'').map renderPair) ++
            ('\x7d' :: rest)))
        have hrec := ih (by simp) f
          (by simp [totalLen] at hfit ⊢; omega) rest
        simp only [parsePairs, hkey, hval, hrec]
        rfl

/-- Helper: a rendered non-empty member list starts with a quote. -/
theorem sepConcat_pairs_shape (kv : String × JVal) (d' : JDict) :
    ∃ Y, sepConcat ((kv :: d').map renderPair) = '"' :: Y := by
  cases d' <;> exact ⟨_, rfl⟩

/-- Helper: the object parser inverts the object renderer. -/
theorem parseObj_render (d : JDict) (fuel : Nat) (hfit : totalLen d < fuel)
    (rest : List Char) :
    parseObj fuel (renderObj d ++ rest) = some (d, rest) := by
  cases d with
  | nil => rfl
  | cons kv d' =>
    have hshape : renderObj (kv :: d') ++ rest =
        '\x7b' :: (sepConcat ((kv :: d').map renderPair) ++ ('\x7d' :: rest)) := by
      simp [renderObj, List.append_assoc]
    rw [hshape]
    obtain ⟨Y, hY⟩ := sepConcat_pairs_shape kv d'
    rw [hY, List.cons_append]
    rw [show parseObj fuel ('\x7b' :: '"' :: (Y ++ '\x7d' :: rest)) =
      parsePairs fuel ('"' :: (Y ++ '\x7d' :: rest)) from rfl]
    rw [← List.cons_append, ← hY]
    exact parsePairs_render (kv :: d') (by simp) fuel hfit rest

/-- Helper: the item parser inverts the item renderer for non-empty
arrays. -/
theorem parseItems_render :
    ∀ (ds : List JDict), ds ≠ [] → ∀ (fuel : Nat), totalArr ds < fuel →
      ∀ (rest : List Char),
        parseItems fuel (sepConcat (ds.map renderObj) ++ (']' :: rest)) =
          some (ds, ']' :: rest) := by
  intro ds
  induction ds with
  | nil => intro h; exact absurd rfl h
  | cons d ds' ih =>
    intro _ fuel hfit rest
    cases fuel with
    | zero => omega
    | succ f =>
      cases ds' with
      | nil =>
        have hshape : sepConcat (([d]).map renderObj) ++ (']' :: rest) =
            renderObj d ++ (']' :: rest) := by simp [sepConcat]
        rw [hshape]
        have hobj := parseObj_render d (f + 1)
          (by simp [totalArr] at hfit; omega) (']' :: rest)
        simp only [parseItems, hobj]
        rfl
      | cons d2 ds'' =>
        have hshape : sepConcat ((d :: d2 :: ds'').map renderObj) ++
              (']' :: rest) =
            renderObj d ++ (',' :: ' ' ::
              (sepConcat ((d2 :: ds'').map renderObj) ++ (']' :: rest))) := by
          simp [sepConcat, List.append_assoc]
        rw [hshape]
        have hobj := parseObj_render d (f + 1)
          (by simp [totalArr] at hfit; omega)
          (',' :: ' ' :: (sepConcat ((d2 :: ds'').map renderObj) ++
            (']' :: rest)))
        have hrec := ih (by simp) f
          (by simp [totalArr] at hfit ⊢; omega) rest
        simp only [parseItems, hobj, hrec]
        rfl

/-- Helper: a rendered non-empty item list starts with an opening
brace. -/
theorem sepConcat_objs_shape (d : JDict) (ds' : List JDict) :
    ∃ Y, sepConcat ((d :: ds').map renderObj) = '\x7b' :: Y := by
  cases ds' <;> exact ⟨_, rfl⟩

/-- Helper: the array parser inverts the array renderer. -/
theorem parseTop_render (ds : List JDict) (fuel : Nat)
    (hfit : totalArr ds < fuel) (rest : List Char) :
    parseTop fuel (renderArr ds ++ rest) = some (ds, rest) := by
  cases ds with
  | nil => rfl
  | cons d ds' =>
    have hshape : renderArr (d :: ds') ++ rest =
        '[' :: (sepConcat ((d :: ds').map renderObj) ++ (']' :: rest)) := by
      simp [renderArr, List.append_assoc]
    rw [hshape]
    obtain ⟨Y, hY⟩ := sepConcat_objs_shape d ds'
    rw [hY, List.cons_append]
    rw [show parseTop fuel ('[' :: '\x7b' :: (Y ++ ']' :: rest)) =
      (match parseItems fuel ('\x7b' :: (Y ++ ']' :: rest)) with
        | some (ds0, ']' :: rest2) => some (ds0, rest2)
        | _ => none) from rfl]
    rw [← List.cons_append, ← hY]
    rw [parseItems_render (d :: ds') (by simp) fuel hfit rest]
    rfl

set_option maxHeartbeats 1000000 in
/-- Helper: every escaped character renders to at least one character. -/
theorem jsonEscChar_length_pos (c : Char) : 1 ≤ (jsonEscChar c).length := by
  rw [jsonEscChar]
  split_ifs <;> simp [uEscape]

/-- Helper: escaping never shrinks a string. -/
theorem flatMap_jsonEscChar_length (l : List Char) :
    l.length ≤ (l.flatMap jsonEscChar).length := by
  induction l with
  | nil => simp
  | cons c cs ih =>
    rw [List.flatMap_cons, List.length_append, List.length_cons]
    have := jsonEscChar_length_pos c
    omega

/-- Helper: a rendered string literal is longer than its contents. -/
theorem renderJString_length (s : String) :
    s.data.length + 2 ≤ (renderJString s).length := by
  have h1 := flatMap_jsonEscChar_length s.data
  rw [show (renderJString s).length =
    (s.data.flatMap jsonEscChar).length + 1 + 1 from by simp [renderJString]]
  omega

/-- Helper: a rendered scalar is longer than its decoded size. -/
theorem renderJVal_length (v : JVal) : jvalLen v + 2 ≤ (renderJVal v).length := by
  cases v with
  | s str => simpa [renderJVal, jvalLen] using renderJString_length str
  | b bv => cases bv <;> simp [renderJVal, jvalLen]

/-- Helper: a rendered member is longer than its decoded size. -/
theorem renderPair_length (kv : String × JVal) :
    kv.1.data.length + jvalLen kv.2 + 1 ≤ (renderPair kv).length := by
  have h1 := renderJString_length kv.1
  have h2 := renderJVal_length kv.2
  rw [show (renderPair kv).length =
    (renderJString kv.1).length + ((renderJVal kv.2).length + 1 + 1) from by
      rw [renderPair, List.length_append, List.length_cons, List.length_cons]]
  omega

/-- Helper: a rendered member list is longer than its decoded size. -/
theorem sepConcat_pairs_length :
    ∀ (d : JDict), totalLen d ≤ (sepConcat (d.map renderPair)).length := by
  intro d
  induction d with
  | nil => simp [totalLen, sepConcat]
  | cons kv d' ih =>
    cases d' with
    | nil =>
      have h1 := renderPair_length kv
      rw [show sepConcat ([kv].map renderPair) = renderPair kv from rfl,
        show totalLen [kv] = kv.1.data.length + jvalLen kv.2 + 1 + 0 from rfl]
      omega
    | cons kv2 d'' =>
      have h1 := renderPair_length kv
      rw [show totalLen (kv :: kv2 :: d'') =
        kv.1.data.length + jvalLen kv.2 + 1 + totalLen (kv2 :: d'') from rfl]
      rw [show sepConcat ((kv :: kv2 :: d'').map renderPair) =
        renderPair kv ++ (',' :: ' ' ::
          sepConcat ((kv2 :: d'').map renderPair)) from rfl]
      rw [List.length_append, List.length_cons, List.length_cons]
      omega

/-- Helper: a rendered object is longer than its decoded size. -/
theorem renderObj_length (d : JDict) : totalLen d + 2 ≤ (renderObj d).length := by
  have h1 := sepConcat_pairs_length d
  rw [show (renderObj d).length =
    (sepConcat (d.map renderPair)).length + 1 + 1 from by simp [renderObj]]
  omega

/-- Helper: a rendered item list is longer than its decoded size. -/
theorem sepConcat_objs_length :
    ∀ (ds : List JDict), totalArr ds ≤ (sepConcat (ds.map renderObj)).length := by
  intro ds
  induction ds with
  | nil => simp [totalArr, sepConcat]
  | cons d ds' ih =>
    cases ds' with
    | nil =>
      have h1 := renderObj_length d
      rw [show sepConcat ([d].map renderObj) = renderObj d from rfl,
        show totalArr [d] = totalLen d + 1 + 0 from rfl]
      omega
    | cons d2 ds'' =>
      have h1 := renderObj_length d
      rw [show totalArr (d :: d2 :: ds'') =
        totalLen d + 1 + totalArr (d2 :: ds'') from rfl]
      rw [show sepConcat ((d :: d2 :: ds'').map renderObj) =
        renderObj d ++ (',' :: ' ' ::
          sepConcat ((d2 :: ds'').map renderObj)) from rfl]
      rw [List.length_append, List.length_cons, List.length_cons]
      omega

/-- Helper: a rendered array is strictly longer than its decoded size, so
the input length is enough parser fuel. -/
theorem renderArr_length (ds : List JDict) :
    totalArr ds < (renderArr ds).length := by
  have h1 := sepConcat_objs_length ds
  rw [show (renderArr ds).length =
    (sepConcat (ds.map renderObj)).length + 1 + 1 from by simp [renderArr]]
  omega

/-- Helper: json.loads inverts json.dumps on the fragment the crawler
serializes. -/
theorem jsonLoads_jsonDumps (ds : List JDict) :
    jsonLoads (jsonDumps ds) = some ds := by
  have hfit : totalArr ds < (renderArr ds).length := renderArr_length ds
  have hp : parseTop (renderArr ds).length (renderArr ds) = some (ds, []) := by
    have h := parseTop_render ds (renderArr ds).length hfit []
    rwa [List.append_nil] at h
  rw [show jsonLoads (jsonDumps ds) =
    (match parseTop (renderArr ds).length (renderArr ds) with
      | some (ds0, []) => some ds0
      | _ => none) from rfl]
  rw [hp]

/-- C10: the crawl-to-apply round trip preserves grants: deserializing
the raw field of the Permissions produced by the crawler (json.loads then
ComplexValue.from_dict on each element, as get_apply_task does) yields a
grant list structurally equal to the group's original list for that
property; the snapshot also carries the group's id and the property
name. -/
theorem C10_crawl_apply_round_trip (g : Group) (prop : String)
    (l : List ComplexValue) (h : propGrants g prop = some l) :
    (jsonLoads ((_crawler_task g prop).raw)).map
        (fun ds => ds.map ComplexValue.from_dict) = some l ∧
    (_crawler_task g prop).object_id = g.id ∧
    (_crawler_task g prop).object_type = prop := by
  refine ⟨?_, rfl, rfl⟩
  rw [show (_crawler_task g prop).raw =
    jsonDumps (((propGrants g prop).getD []).map ComplexValue.as_dict) from rfl]
  rw [h, Option.getD_some, jsonLoads_jsonDumps]
  show some ((l.map ComplexValue.as_dict).map ComplexValue.from_dict) = some l
  rw [List.map_map]
  rw [show l.map (ComplexValue.from_dict ∘ ComplexValue.as_dict) = l.map id from
    List.map_congr_left (fun x _ => from_dict_as_dict x), List.map_id]

/-- C10 witness: a one-role group's crawled snapshot deserializes back to
the same grant list. -/
theorem C10_crawl_apply_round_trip_witness :
    (jsonLoads ((_crawler_task { id := some "G1", roles := some [cvAdmin] }
        "roles").raw)).map (fun ds => ds.map ComplexValue.from_dict) =
      some [cvAdmin] := by
  exact (C10_crawl_apply_round_trip
    { id := some "G1", roles := some [cvAdmin] } "roles" [cvAdmin]
    (by decide)).1

end Scim
